import Mathlib

/-!
Verification of the head-tracking / gaze-calibration core.

Shallow embedding of:
* `src/client/src/utils/RegressionUtils.ts` (`PolynomialRegression`) over `ℚ`
  (exact arithmetic stands in for IEEE doubles; the numeric literals `1e-10`,
  `0.18`, ... are embedded as the exact rationals they denote),
* `src/client/src/utils/KalmanFilter.ts` (`KalmanFilter`) over an arbitrary
  linear ordered field,
* the `useMediaPipe` no-face decay branch over `ℚ`,
* the `useHeadTracking` per-frame `onResults` handler over `ℝ`.

JavaScript exceptions (out-of-range landmark access, `throw new Error`) are
modelled with `Option`: `none` is a thrown exception escaping the modelled
code.  IEEE non-finite values (`NaN`/`Infinity`) arising from the one
unguarded division (the EAR denominator) are modelled by `Option ℝ` with
`none` standing for a non-finite double; every comparison against a
non-finite value yields `false`, exactly as in IEEE semantics.
-/

namespace RegressionUtils

/-- A 2-D sample point (gaze yaw/pitch on input, screen pixels on output). -/
structure Point where
  x : ℚ
  y : ℚ
deriving DecidableEq

/-- The design-matrix row for one input point:
`[p.x, p.y, p.x*p.y, p.x*p.x, p.y*p.y, 1]` (RegressionUtils.ts line 37). -/
def termRow (p : Point) : Fin 6 → ℚ :=
  ![p.x, p.y, p.x * p.y, p.x * p.x, p.y * p.y, 1]

/-- Entry `(i, j)` of `Xᵀ·X` for the design matrix `X` whose `k`-th row is
`termRow inputs[k]`:  `(XᵀX)[i][j] = Σ_k X[k][i]·X[k][j]`, which is what
`multiply(transpose(X), X)` computes in the source. -/
def XtX (inputs : List Point) : Matrix (Fin 6) (Fin 6) ℚ :=
  Matrix.of fun i j => ((inputs.map fun p => termRow p i * termRow p j).sum)

/-- Entry `j` of `Xᵀ·Y` where `Y` is one target column (selected by `tgt`):
`(XᵀY)[j] = Σ_k X[k][j]·Y[k]`, which is `multiply(transpose(X), Y)` in the
source.  The source builds `X` from `inputs` and `Y` from `outputs`
independently; for equal-length lists this is the zipped sum below. -/
def XtY (inputs outputs : List Point) (tgt : Point → ℚ) : Fin 6 → ℚ :=
  fun j => (((inputs.zip outputs).map fun q => termRow q.1 j * tgt q.2).sum)

/-- The pivot threshold `1e-10` of `PolynomialRegression.invert`. -/
def pivotEps : ℚ := 1 / 10 ^ 10

/-- The augmented matrix `[L | R]` of the Gaussian elimination: the source
keeps one `n × 2n` array; we keep its left and right halves. -/
@[ext]
structure Aug (n : ℕ) where
  L : Matrix (Fin n) (Fin n) ℚ
  R : Matrix (Fin n) (Fin n) ℚ

/-- Partial-pivot search of `invert`: scan rows `j = i+1 … n-1` and keep the
row with the largest `|A[j][i]|`, starting from `pivotRow = i`. -/
def pivotRow (L : Matrix (Fin n) (Fin n) ℚ) (i : Fin n) : Fin n :=
  ((List.finRange n).drop (i.val + 1)).foldl
    (fun p j => if |L j i| > |L p i| then j else p) i

/-- Row swap `[A[i], A[p]] = [A[p], A[i]]` on one half of the augmented
matrix. -/
def swapRows (A : Matrix (Fin n) (Fin n) ℚ) (i p : Fin n) :
    Matrix (Fin n) (Fin n) ℚ :=
  Matrix.of fun r j => if r = i then A p j else if r = p then A i j else A r j

/-- The row-normalisation step `A[i][j] /= pivot` of `invert`: the source
loops `j = i … 2n-1`, i.e. over the columns `j ≥ i` of the left half and
the whole right half. -/
def normAug (A : Aug n) (i : Fin n) (piv : ℚ) : Aug n where
  L := Matrix.of fun r j => if r = i ∧ i ≤ j then A.L r j / piv else A.L r j
  R := Matrix.of fun r j => if r = i then A.R r j / piv else A.R r j

/-- The elimination step of `invert`: for every row `k ≠ i`, subtract
`factor · row i` with `factor = A[k][i]` (read before the loop mutates it),
again over the columns `j = i … 2n-1`. -/
def elimAug (A : Aug n) (i : Fin n) : Aug n where
  L := Matrix.of fun k j =>
    if k ≠ i ∧ i ≤ j then A.L k j - A.L k i * A.L i j else A.L k j
  R := Matrix.of fun k j =>
    if k ≠ i then A.R k j - A.L k i * A.R i j else A.R k j

/-- One iteration `i` of the elimination loop of
`PolynomialRegression.invert` (RegressionUtils.ts lines 114-136): partial
pivoting, the row swap, the `|pivot| < 1e-10` singularity check (`none`
models the thrown `"Singular Matrix"` error), then row normalisation and
elimination. -/
def geStep (A : Aug n) (i : Fin n) : Option (Aug n) :=
  let p := pivotRow A.L i
  let A1 : Aug n := ⟨swapRows A.L i p, swapRows A.R i p⟩
  let piv := A1.L i i
  if |piv| < pivotEps then none
  else some (elimAug (normAug A1 i piv) i)

/-- `PolynomialRegression.invert`: Gaussian elimination on the augmented
matrix `[M | I]`; `none` models the thrown `"Singular Matrix"` error.  On
success the right half is returned (`A.map(row => row.slice(n))`). -/
def invert (M : Matrix (Fin n) (Fin n) ℚ) : Option (Matrix (Fin n) (Fin n) ℚ) :=
  (((List.finRange n).foldlM geStep ⟨M, 1⟩).map Aug.R)

/-- Loop invariant of the elimination, part 1: every row of the left half
equals the corresponding row of the right half multiplied by the original
matrix (`[L | R]` arises from `[M | I]` by row operations). -/
def rowRel (M : Matrix (Fin n) (Fin n) ℚ) (A : Aug n) : Prop :=
  ∀ r j, A.L r j = ∑ l, A.R r l * M l j

/-- Loop invariant of the elimination, part 2: after columns `0 … m-1` have
been processed, those columns of the left half carry the identity
pattern. -/
def idPrefix (A : Aug n) (m : ℕ) : Prop :=
  ∀ k j : Fin n, j.val < m → A.L k j = if k = j then 1 else 0

/-- Noiseless synthetic outputs: the targets are generated exactly by the
coefficient vectors `βx`, `βy` over the basis `termRow`. -/
def genOutputs (inputs : List Point) (βx βy : Fin 6 → ℚ) : List Point :=
  inputs.map fun p => ⟨∑ i, termRow p i * βx i, ∑ i, termRow p i * βy i⟩

/-- Six sample points in general position (not on a common conic), the
concrete instance for the round-trip claim. -/
def basePts : List Point := [⟨0, 0⟩, ⟨1, 0⟩, ⟨0, 1⟩, ⟨1, 1⟩, ⟨2, 1⟩, ⟨1, 2⟩]

/-- Elimination state 0 (left half) of `invert (XtX basePts)`. -/
def gwL0 : Matrix (Fin 6) (Fin 6) ℚ :=
  !![7, 5, 7, 11, 7, 5; 5, 7, 7, 7, 11, 5; 7, 7, 9, 11, 11, 5; 11, 7, 11, 19, 9, 7; 7, 11, 11, 9, 19, 7; 5, 5, 5, 7, 7, 6]

/-- Elimination state 0 (right half) of `invert (XtX basePts)`. -/
def gwR0 : Matrix (Fin 6) (Fin 6) ℚ :=
  !![1, 0, 0, 0, 0, 0; 0, 1, 0, 0, 0, 0; 0, 0, 1, 0, 0, 0; 0, 0, 0, 1, 0, 0; 0, 0, 0, 0, 1, 0; 0, 0, 0, 0, 0, 1]

/-- Elimination state 1 (left half) of `invert (XtX basePts)`. -/
def gwL1 : Matrix (Fin 6) (Fin 6) ℚ :=
  !![1, 7/11, 1, 19/11, 9/11, 7/11; 0, 42/11, 2, -18/11, 76/11, 20/11; 0, 28/11, 2, -12/11, 58/11, 6/11; 0, 6/11, 0, -12/11, 14/11, 6/11; 0, 72/11, 4, -34/11, 146/11, 28/11; 0, 20/11, 0, -18/11, 32/11, 31/11]

/-- Elimination state 1 (right half) of `invert (XtX basePts)`. -/
def gwR1 : Matrix (Fin 6) (Fin 6) ℚ :=
  !![0, 0, 0, 1/11, 0, 0; 0, 1, 0, -5/11, 0, 0; 0, 0, 1, -7/11, 0, 0; 1, 0, 0, -7/11, 0, 0; 0, 0, 0, -7/11, 1, 0; 0, 0, 0, -5/11, 0, 1]

/-- Elimination state 2 (left half) of `invert (XtX basePts)`. -/
def gwL2 : Matrix (Fin 6) (Fin 6) ℚ :=
  !![1, 0, 11/18, 73/36, -17/36, 7/18; 0, 1, 11/18, -17/36, 73/36, 7/18; 0, 0, 4/9, 1/9, 1/9, -4/9; 0, 0, -1/3, -5/6, 1/6, 1/3; 0, 0, -1/3, 1/6, -5/6, 1/3; 0, 0, -10/9, -7/9, -7/9, 19/9]

/-- Elimination state 2 (right half) of `invert (XtX basePts)`. -/
def gwR2 : Matrix (Fin 6) (Fin 6) ℚ :=
  !![0, 0, 0, 11/72, -7/72, 0; 0, 0, 0, -7/72, 11/72, 0; 0, 0, 1, -7/18, -7/18, 0; 1, 0, 0, -7/12, -1/12, 0; 0, 1, 0, -1/12, -7/12, 0; 0, 0, 0, -5/18, -5/18, 1]

/-- Elimination state 3 (left half) of `invert (XtX basePts)`. -/
def gwL3 : Matrix (Fin 6) (Fin 6) ℚ :=
  !![1, 0, 0, 8/5, -9/10, 31/20; 0, 1, 0, -9/10, 8/5, 31/20; 0, 0, 1, 7/10, 7/10, -19/10; 0, 0, 0, -3/5, 2/5, -3/10; 0, 0, 0, 2/5, -3/5, -3/10; 0, 0, 0, -1/5, -1/5, 2/5]

/-- Elimination state 3 (right half) of `invert (XtX basePts)`. -/
def gwR3 : Matrix (Fin 6) (Fin 6) ℚ :=
  !![0, 0, 0, 0, -1/4, 11/20; 0, 0, 0, -1/4, 0, 11/20; 0, 0, 0, 1/4, 1/4, -9/10; 1, 0, 0, -1/2, 0, -3/10; 0, 1, 0, 0, -1/2, -3/10; 0, 0, 1, -1/2, -1/2, 2/5]

/-- Elimination state 4 (left half) of `invert (XtX basePts)`. -/
def gwL4 : Matrix (Fin 6) (Fin 6) ℚ :=
  !![1, 0, 0, 0, 1/6, 3/4; 0, 1, 0, 0, 1, 2; 0, 0, 1, 0, 7/6, -9/4; 0, 0, 0, 1, -2/3, 1/2; 0, 0, 0, 0, -1/3, -1/2; 0, 0, 0, 0, -1/3, 1/2]

/-- Elimination state 4 (right half) of `invert (XtX basePts)`. -/
def gwR4 : Matrix (Fin 6) (Fin 6) ℚ :=
  !![8/3, 0, 0, -4/3, -1/4, -1/4; -3/2, 0, 0, 1/2, 0, 1; 7/6, 0, 0, -1/3, 1/4, -5/4; -5/3, 0, 0, 5/6, 0, 1/2; 2/3, 1, 0, -1/3, -1/2, -1/2; -1/3, 0, 1, -1/3, -1/2, 1/2]

/-- Elimination state 5 (left half) of `invert (XtX basePts)`. -/
def gwL5 : Matrix (Fin 6) (Fin 6) ℚ :=
  !![1, 0, 0, 0, 0, 1/2; 0, 1, 0, 0, 0, 1/2; 0, 0, 1, 0, 0, -4; 0, 0, 0, 1, 0, 3/2; 0, 0, 0, 0, 1, 3/2; 0, 0, 0, 0, 0, 1]

/-- Elimination state 5 (right half) of `invert (XtX basePts)`. -/
def gwR5 : Matrix (Fin 6) (Fin 6) ℚ :=
  !![3, 1/2, 0, -3/2, -1/2, -1/2; 1/2, 3, 0, -1/2, -3/2, -1/2; 7/2, 7/2, 0, -3/2, -3/2, -3; -3, -2, 0, 3/2, 1, 3/2; -2, -3, 0, 1, 3/2, 3/2; -1, -1, 1, 0, 0, 1]

/-- Elimination state 6 (left half) of `invert (XtX basePts)`. -/
def gwL6 : Matrix (Fin 6) (Fin 6) ℚ :=
  !![1, 0, 0, 0, 0, 0; 0, 1, 0, 0, 0, 0; 0, 0, 1, 0, 0, 0; 0, 0, 0, 1, 0, 0; 0, 0, 0, 0, 1, 0; 0, 0, 0, 0, 0, 1]

/-- Elimination state 6 (right half) of `invert (XtX basePts)`. -/
def gwR6 : Matrix (Fin 6) (Fin 6) ℚ :=
  !![7/2, 1, -1/2, -3/2, -1/2, -1; 1, 7/2, -1/2, -1/2, -3/2, -1; -1/2, -1/2, 4, -3/2, -3/2, 1; -3/2, -1/2, -3/2, 3/2, 1, 0; -1/2, -3/2, -3/2, 1, 3/2, 0; -1, -1, 1, 0, 0, 1]

/-- The coordinate scale `1e-11` of the tiny counterexample points. -/
def epsQ : ℚ := 1 / 10 ^ 11

/-- The counterexample points: `basePts` scaled by `1e-11`.  `XᵀX` of these
points is mathematically invertible, but every entry of its first column
has magnitude at most `5e-11 < 1e-10`, so the very first pivot check of
`invert` rejects it. -/
def ptsTiny : List Point := basePts.map fun p => ⟨epsQ * p.x, epsQ * p.y⟩

/-- How each basis function scales when a point is scaled by `epsQ`. -/
def dvec : Fin 6 → ℚ := ![epsQ, epsQ, epsQ ^ 2, epsQ ^ 2, epsQ ^ 2, 1]

/-- An explicit inverse of `XtX ptsTiny`, obtained from the inverse `gwR6`
of `XtX basePts` by undoing the scaling. -/
def tinyInv : Matrix (Fin 6) (Fin 6) ℚ :=
  Matrix.of fun i j => gwR6 i j / (dvec i * dvec j)

/-- The mutable coefficient state of a `PolynomialRegression` instance;
`none` models the initial `null`. -/
structure PolynomialRegression where
  coefficientsX : Option (Fin 6 → ℚ)
  coefficientsY : Option (Fin 6 → ℚ)

/-- A freshly constructed `PolynomialRegression` (both coefficient vectors
`null`). -/
def PolynomialRegression.init : PolynomialRegression := ⟨none, none⟩

/-- `PolynomialRegression.fit`.  Fewer than 6 points: warn and return with
the state untouched.  Otherwise solve the normal equations; if `invert`
throws (`none`), the `catch` block leaves the state untouched; on success
both coefficient vectors are overwritten with `(XᵀX)⁻¹ · XᵀY`
(`BetaX[i] = Σ_j Inv[i][j]·XtY[j]`, i.e. `mulVec`). -/
def PolynomialRegression.fit (s : PolynomialRegression)
    (inputs outputs : List Point) : PolynomialRegression :=
  if inputs.length < 6 then s
  else
    match invert (XtX inputs) with
    | none => s
    | some inv =>
      { coefficientsX := some (inv.mulVec (XtY inputs outputs Point.x))
        coefficientsY := some (inv.mulVec (XtY inputs outputs Point.y)) }

/-- `PolynomialRegression.predict`: `{x: 0, y: 0}` while either coefficient
vector is still `null`, otherwise `Σ_i term[i]·coeff[i]` per axis. -/
def PolynomialRegression.predict (s : PolynomialRegression) (x y : ℚ) : ℚ × ℚ :=
  match s.coefficientsX, s.coefficientsY with
  | some cX, some cY =>
      (∑ i, termRow ⟨x, y⟩ i * cX i, ∑ i, termRow ⟨x, y⟩ i * cY i)
  | _, _ => (0, 0)

end RegressionUtils

namespace KalmanUtils

variable {K : Type} [LinearOrderedField K]

/-- The mutable state of a `KalmanFilter` instance (KalmanFilter.ts):
state vector `x = [x, y, dx, dy]`, covariance `P`, process noise `Q`,
measurement noise `R`, transition `F`, measurement `H`, and the
`initialized` flag. -/
structure KalmanFilter (K : Type) where
  x : Fin 4 → K
  P : Matrix (Fin 4) (Fin 4) K
  Q : Matrix (Fin 4) (Fin 4) K
  R : Matrix (Fin 2) (Fin 2) K
  F : Matrix (Fin 4) (Fin 4) K
  H : Matrix (Fin 2) (Fin 4) K
  initialized : Bool

/-- `eye(n, scale)`: the diagonal matrix `scale · I`. -/
def eye (n : ℕ) (scale : K) : Matrix (Fin n) (Fin n) K := scale • 1

/-- The `KalmanFilter` constructor: zero state, `P = I`,
`Q = eye(4, processNoise)`, `R = eye(2, measurementNoise)`, the
constant-velocity `F` and the position-measurement `H`,
`initialized = false`. -/
def KalmanFilter.construct (processNoise measurementNoise : K) : KalmanFilter K where
  x := ![0, 0, 0, 0]
  P := eye 4 1
  Q := eye 4 processNoise
  R := eye 2 measurementNoise
  F := !![1, 0, 1, 0; 0, 1, 0, 1; 0, 0, 1, 0; 0, 0, 0, 1]
  H := !![1, 0, 0, 0; 0, 1, 0, 0]
  initialized := false

/-- `det` as computed by `invert2x2`:
`M[0][0]*M[1][1] - M[0][1]*M[1][0]`. -/
def det2 (M : Matrix (Fin 2) (Fin 2) K) : K :=
  M 0 0 * M 1 1 - M 0 1 * M 1 0

variable [DecidableRel ((· < ·) : K → K → Prop)]

/-- `KalmanFilter.invert2x2`: adjugate over the determinant, guarded by
`|det| < 1e-6`, in which case the zero matrix is returned (the fallback). -/
def invert2x2 (M : Matrix (Fin 2) (Fin 2) K) : Matrix (Fin 2) (Fin 2) K :=
  let det := det2 M
  if |det| < 1 / 1000000 then 0
  else
    let invDet := 1 / det
    !![M 1 1 * invDet, -(M 0 1) * invDet; -(M 1 0) * invDet, M 0 0 * invDet]

/-- The predicted covariance `F·P·Fᵀ + Q` of the PREDICT block. -/
def predictedP (k : KalmanFilter K) : Matrix (Fin 4) (Fin 4) K :=
  k.F * k.P * k.F.transpose + k.Q

/-- The innovation covariance `S = H·P·Hᵀ + R` of the CORRECT block
(`P` here is the predicted covariance). -/
def innovationS (k : KalmanFilter K) : Matrix (Fin 2) (Fin 2) K :=
  k.H * predictedP k * k.H.transpose + k.R

/-- `KalmanFilter.update(mx, my)`: on the first call, set
`x = [mx, my, 0, 0]`, flag `initialized` and return `(mx, my)` directly;
afterwards run the standard predict step (`x = F·x`, `P = F·P·Fᵀ + Q`)
followed by the correction through the (guarded) inverse of the innovation
covariance.  Returns the new instance state together with the returned
`{x, y}` pair. -/
def KalmanFilter.update (k : KalmanFilter K) (mx my : K) :
    KalmanFilter K × (K × K) :=
  if k.initialized = false then
    ({ k with x := ![mx, my, 0, 0], initialized := true }, (mx, my))
  else
    let xp := k.F.mulVec k.x
    let Pp := predictedP k
    let z : Fin 2 → K := ![mx, my]
    let Hx := k.H.mulVec xp
    let y : Fin 2 → K := ![z 0 - Hx 0, z 1 - Hx 1]
    let S := k.H * Pp * k.H.transpose + k.R
    let Si := invert2x2 S
    let Kg := Pp * k.H.transpose * Si
    let Ky := Kg.mulVec y
    let xn : Fin 4 → K := ![xp 0 + Ky 0, xp 1 + Ky 1, xp 2 + Ky 2, xp 3 + Ky 3]
    let Pn := (1 - Kg * k.H) * Pp
    ({ k with x := xn, P := Pn }, (xn 0, xn 1))

/-- A concrete initialised filter state with zero covariance and zero
noise, making the innovation covariance exactly singular. -/
def degenerateKF : KalmanFilter ℚ :=
  { KalmanFilter.construct 0 0 with
      x := ![1, 2, 3, 4], P := 0, initialized := true }

end KalmanUtils

namespace MediaPipeHook

/-- The `EyePosition` EMA state of the `useMediaPipe` hook (`ℚ` model of
the `{x, y, z}` ref). -/
structure EyePos where
  x : ℚ
  y : ℚ
  z : ℚ
deriving DecidableEq

/-- The fixed neutral position `{x: 0, y: 0, z: 800}`. -/
def neutral : EyePos := ⟨0, 0, 800⟩

/-- The no-face branch of the `useMediaPipe` `onResults` callback:
`eyePosEMA = 0.05·neutral + 0.95·eyePosEMA`, componentwise
(`0.05 = 1/20`, `0.95 = 19/20`). -/
def decayStep (p : EyePos) : EyePos where
  x := 1 / 20 * neutral.x + 19 / 20 * p.x
  y := 1 / 20 * neutral.y + 19 / 20 * p.y
  z := 1 / 20 * neutral.z + 19 / 20 * p.z

/-- `n` consecutive no-face frames. -/
def decayIter : ℕ → EyePos → EyePos
  | 0, p => p
  | n + 1, p => decayStep (decayIter n p)

end MediaPipeHook

namespace HeadTracking

/-- A MediaPipe landmark / three.js `Vector3` over the reals (the model of
IEEE doubles; non-finite values are tracked at the `Option` level where
they can arise). -/
structure V3 where
  x : ℝ
  y : ℝ
  z : ℝ

/-- three.js `subVectors`. -/
noncomputable def V3.sub (a b : V3) : V3 :=
  ⟨a.x - b.x, a.y - b.y, a.z - b.z⟩

/-- three.js `length`. -/
noncomputable def V3.length (a : V3) : ℝ :=
  Real.sqrt (a.x ^ 2 + a.y ^ 2 + a.z ^ 2)

/-- three.js `distanceTo`. -/
noncomputable def V3.distanceTo (a b : V3) : ℝ :=
  (a.sub b).length

/-- three.js `crossVectors`. -/
noncomputable def V3.cross (a b : V3) : V3 :=
  ⟨a.y * b.z - a.z * b.y, a.z * b.x - a.x * b.z, a.x * b.y - a.y * b.x⟩

/-- three.js `normalize`: divides by `length() || 1`, so the zero vector
stays zero instead of producing `NaN`. -/
noncomputable def V3.normalize (a : V3) : V3 :=
  let l := if a.length = 0 then 1 else a.length
  ⟨a.x / l, a.y / l, a.z / l⟩

/-- JS `Math.atan2(y, x)` (total; `atan2(0, 0) = 0`). -/
noncomputable def atan2 (y x : ℝ) : ℝ :=
  if 0 < x then Real.arctan (y / x)
  else if x < 0 then
    if 0 ≤ y then Real.arctan (y / x) + Real.pi else Real.arctan (y / x) - Real.pi
  else
    if 0 < y then Real.pi / 2 else if y < 0 then -(Real.pi / 2) else 0

/-- three.js `MathUtils.clamp(value, lo, hi) = max(lo, min(hi, value))`. -/
noncomputable def clampR (v lo hi : ℝ) : ℝ := max lo (min hi v)

/-- three.js `Euler.setFromRotationMatrix(m, 'YXZ')` on the basis matrix
built by `makeBasis(faceX, faceY, faceZ)` (columns are the three axes, so
`m13 = faceZ.x`, `m23 = faceZ.y`, `m33 = faceZ.z`, `m21 = faceX.y`,
`m22 = faceY.y`, `m31 = faceX.z`, `m11 = faceX.x`).  Returns
`(euler.x, euler.y, euler.z)`. -/
noncomputable def eulerYXZ (faceX faceY faceZ : V3) : ℝ × ℝ × ℝ :=
  let m23 := faceZ.y
  let ex := Real.arcsin (-(clampR m23 (-1) 1))
  if |m23| < 0.9999999 then
    (ex, atan2 faceZ.x faceZ.z, atan2 faceX.y faceY.y)
  else
    (ex, atan2 (-faceX.z) faceX.x, 0)

/-- `SUBJECT_RIGHT_EYE` landmark indices. -/
def SUBJECT_RIGHT_EYE : List ℕ := [33, 160, 158, 133, 153, 144]

/-- `SUBJECT_LEFT_EYE` landmark indices. -/
def SUBJECT_LEFT_EYE : List ℕ := [362, 385, 387, 263, 373, 380]

/-- `calculateEAR(landmarks, indices)`.  The outer `Option` models the JS
exception channel: accessing a landmark index beyond the list throws a
`TypeError` (reading `.x` of `undefined`), modelled as `none`; fewer than
six indices likewise throws on `p[5]` (dead code for the two six-index
constants used).  The inner `Option` models the IEEE result of
`(v1 + v2) / (2.0 * h)`: `none` (non-finite `Infinity`/`NaN`) exactly when
the horizontal corner distance `h` is zero — there is no guard in the
source. -/
noncomputable def calculateEAR (landmarks : List V3) (indices : List ℕ) :
    Option (Option ℝ) :=
  match indices with
  | i0 :: i1 :: i2 :: i3 :: i4 :: i5 :: _ => do
    let p0 ← landmarks[i0]?
    let p1 ← landmarks[i1]?
    let p2 ← landmarks[i2]?
    let p3 ← landmarks[i3]?
    let p4 ← landmarks[i4]?
    let p5 ← landmarks[i5]?
    let v1 := p1.distanceTo p5
    let v2 := p2.distanceTo p4
    let h := p0.distanceTo p3
    pure (if 2.0 * h = 0 then none else some ((v1 + v2) / (2.0 * h)))
  | _ => none

/-- IEEE addition on possibly non-finite EAR values: both operands are
nonnegative or non-finite, so any `Infinity`/`NaN` operand (modelled
`none`) makes the sum non-finite. -/
def optAdd : Option ℝ → Option ℝ → Option ℝ
  | some a, some b => some (a + b)
  | _, _ => none

/-- The JS comparison `avgEAR < t`: comparisons where the left operand is
non-finite (`NaN < t` and `Infinity < t`, modelled `none`) are `false`. -/
noncomputable def earLt (a : Option ℝ) (t : ℝ) : Bool :=
  match a with
  | some v => decide (v < t)
  | none => false

/-- The blink flag the handler computes for a frame (lines 487–491): the
average of the two EARs compared strictly against `0.18`; `none` when the
EAR computation itself threw. -/
noncomputable def frameBlink (landmarks : List V3) : Option Bool := do
  let rightEAR ← calculateEAR landmarks SUBJECT_RIGHT_EYE
  let leftEAR ← calculateEAR landmarks SUBJECT_LEFT_EYE
  pure (earLt ((optAdd leftEAR rightEAR).map fun s => s / 2) (0.18 : ℝ))

/-- The pixel-space conversion the handler maps over the landmark list:
`{x: p.x*640, y: p.y*480, z: p.z*640}` (applied here at each access). -/
noncomputable def toPx (p : V3) : V3 := ⟨p.x * 640, p.y * 480, p.z * 640⟩

/-- The raw (unfiltered) right-iris offset of a frame in pixel space:
`irisR - anchorR` with `anchorR = landmarksPx[33]`,
`irisR = landmarksPx[468]`; `none` if an index is missing. -/
noncomputable def rawOffsetR (landmarks : List V3) : Option (ℝ × ℝ) := do
  let a ← landmarks[33]?
  let i ← landmarks[468]?
  pure ((toPx i).x - (toPx a).x, (toPx i).y - (toPx a).y)

/-- The raw (unfiltered) left-iris offset of a frame in pixel space:
`irisL - anchorL` with `anchorL = landmarksPx[362]`,
`irisL = landmarksPx[473]`. -/
noncomputable def rawOffsetL (landmarks : List V3) : Option (ℝ × ℝ) := do
  let a ← landmarks[362]?
  let i ← landmarks[473]?
  pure ((toPx i).x - (toPx a).x, (toPx i).y - (toPx a).y)

/-- `computeEyeScale` (FaceUtils.ts) at the handler's call site, where
`width = height = 1` so `scalePoint` is the identity and `distance2D`
uses the raw coordinates: `max(1e-6, (dOuter + dInner) / 2)` over the
corner landmarks 33, 263, 133, 362. -/
noncomputable def distance2D (p q : V3) : ℝ :=
  Real.sqrt ((p.x - q.x) ^ 2 + (p.y - q.y) ^ 2)

/-- `computeEyeScale(landmarks)`; the bound is available because the
handler only calls it after the 478-point guard. -/
noncomputable def computeEyeScale (landmarks : List V3)
    (h : 363 ≤ landmarks.length) : ℝ :=
  let p33 := landmarks.get ⟨33, by omega⟩
  let p263 := landmarks.get ⟨263, by omega⟩
  let p133 := landmarks.get ⟨133, by omega⟩
  let p362 := landmarks.get ⟨362, by omega⟩
  max (1e-6 : ℝ) ((distance2D p33 p263 + distance2D p133 p362) / 2)

/-- Modelled from the spec: the adaptive one-euro low-pass filter state
(`OneEuroFilter.ts` is imported by the hook but missing from `src/`,
spec §4.4): previous raw sample, smoothed derivative, previous output,
previous timestamp, a seeded flag, the tunable `minCutoff` / `beta`
configuration, and the fixed derivative cutoff. -/
structure OneEuro where
  minCutoff : ℝ
  beta : ℝ
  dCutoff : ℝ
  xPrev : ℝ
  dxPrev : ℝ
  yPrev : ℝ
  tPrev : ℝ
  seeded : Bool

/-- Modelled from the spec: the smoothing coefficient
`α = 1 / (1 + τ/dt)` with `τ = 1/(2π·cutoff)`. -/
noncomputable def smoothingAlpha (cutoff dt : ℝ) : ℝ :=
  1 / (1 + 1 / (2 * Real.pi * cutoff) / dt)

/-- Modelled from the spec: the `OneEuroFilter(minCutoff, beta)`
constructor (derivative cutoff fixed at 1). -/
def OneEuro.construct (minCutoff beta : ℝ) : OneEuro :=
  ⟨minCutoff, beta, 1, 0, 0, 0, 0, false⟩

/-- Modelled from the spec: `filter(x, timestamp)` — the first call seeds
the state and returns `x` unchanged; `dt ≤ 0` (duplicate/out-of-order
timestamps, in seconds from the millisecond timestamps) returns the
previous output unchanged; otherwise exponential smoothing of the
derivative `(x - xPrev)/dt` picks the effective cutoff
`minCutoff + beta·|dxHat|` and the output is `α·x + (1−α)·previous`.
Returns the new state and the output. -/
noncomputable def OneEuro.filter (f : OneEuro) (x t : ℝ) : OneEuro × ℝ :=
  if f.seeded = false then
    ({ f with xPrev := x, dxPrev := 0, yPrev := x, tPrev := t, seeded := true }, x)
  else
    let dt := (t - f.tPrev) / 1000
    if dt ≤ 0 then (f, f.yPrev)
    else
      let dx := (x - f.xPrev) / dt
      let ad := smoothingAlpha f.dCutoff dt
      let dxHat := ad * dx + (1 - ad) * f.dxPrev
      let cutoff := f.minCutoff + f.beta * |dxHat|
      let a := smoothingAlpha cutoff dt
      let y := a * x + (1 - a) * f.yPrev
      ({ f with xPrev := x, dxPrev := dxHat, yPrev := y, tPrev := t }, y)

/-- The `trackingMode` configuration. -/
inductive TrackingMode where
  | head : TrackingMode
  | iris : TrackingMode
deriving DecidableEq, BEq

/-- The published `BlinkState` (`blinkStrength`, `leftEAR`, `rightEAR` can
hold non-finite IEEE values, modelled `none`). -/
structure BlinkState where
  isBlinking : Bool
  blinkStrength : Option ℝ
  leftEAR : Option ℝ
  rightEAR : Option ℝ

/-- The published `FaceRotation`. -/
structure FaceRotation where
  yaw : ℝ
  pitch : ℝ
  roll : ℝ

/-- The published `IrisData`. -/
structure IrisData where
  x : ℝ
  y : ℝ

/-- The published gaze `{yaw, pitch}`. -/
structure GazeData where
  yaw : ℝ
  pitch : ℝ

/-- The published `EyePosition`. -/
structure EyePosition where
  x : ℝ
  y : ℝ
  z : ℝ

/-- The `lastEyePosRef` blink-hold storage `{rX, rY, lX, lY}`. -/
structure LastEyePos where
  rX : ℝ
  rY : ℝ
  lX : ℝ
  lY : ℝ

/-- The mutable state of the `useHeadTracking` hook touched by its
per-frame `onResults` callback: the three one-euro rotation filters, the
two per-eye Kalman filters, the blink-hold storage, the recenter offset
and flag, the tracking mode, and the published outputs. -/
structure TrackState where
  filterYaw : OneEuro
  filterPitch : OneEuro
  filterRoll : OneEuro
  kalmanRight : KalmanUtils.KalmanFilter ℝ
  kalmanLeft : KalmanUtils.KalmanFilter ℝ
  lastEyePos : LastEyePos
  rotationOffset : FaceRotation
  recenterNextFrame : Bool
  trackingMode : TrackingMode
  blink : BlinkState
  rotation : FaceRotation
  iris : IrisData
  gaze : GazeData
  eyePos : EyePosition

/-- The initial hook state (`useRef`/`useState` initial values). -/
noncomputable def TrackState.init : TrackState where
  filterYaw := OneEuro.construct 0.1 5.0
  filterPitch := OneEuro.construct 0.1 5.0
  filterRoll := OneEuro.construct 0.1 5.0
  kalmanRight := KalmanUtils.KalmanFilter.construct 0.01 0.1
  kalmanLeft := KalmanUtils.KalmanFilter.construct 0.01 0.1
  lastEyePos := ⟨0, 0, 0, 0⟩
  rotationOffset := ⟨0, 0, 0⟩
  recenterNextFrame := false
  trackingMode := TrackingMode.head
  blink := ⟨false, some 0, some 0, some 0⟩
  rotation := ⟨0, 0, 0⟩
  iris := ⟨0, 0⟩
  gaze := ⟨0, 0⟩
  eyePos := ⟨0, 0, 800⟩

/-- The body of the per-frame callback after the 478-point guard (source
lines 504–625), as a pure function of the pre-frame state, the timestamp,
the landmarks (with the guard's bound) and the already-computed EAR
values.  The JS mutations of the per-eye Kalman filters and of
`lastEyePosRef` inside the `if (!isBlinking)` branch are rendered as pure
candidate values selected by the blink flag (`cond`), and the mapped
`landmarksPx` array is rendered by applying `toPx` at each access. -/
noncomputable def onResultsCore (st : TrackState) (timestamp : ℝ)
    (landmarks : List V3) (h : 478 ≤ landmarks.length)
    (rightEAR leftEAR avgEAR : Option ℝ) (isBlinking : Bool) : TrackState :=
  let nose := toPx (landmarks.get ⟨1, by omega⟩)
  let chin := toPx (landmarks.get ⟨152, by omega⟩)
  let leftEye := toPx (landmarks.get ⟨263, by omega⟩)
  let rightEye := toPx (landmarks.get ⟨33, by omega⟩)
  let faceX := (leftEye.sub rightEye).normalize
  let tempUp := (nose.sub chin).normalize
  let faceZ := (faceX.cross tempUp).normalize
  let faceY := (faceZ.cross faceX).normalize
  let euler := eulerYXZ faceX faceY faceZ
  let rawYaw := euler.2.1
  let rawPitch := euler.1
  let rawRoll := euler.2.2
  let fixedYaw0 := rawYaw - Real.pi
  let fixedYaw1 := if fixedYaw0 < -Real.pi then fixedYaw0 + 2 * Real.pi else fixedYaw0
  let fixedYaw2 := if fixedYaw1 > Real.pi then fixedYaw1 - 2 * Real.pi else fixedYaw1
  let fixedYaw := fixedYaw2 * (-1.0)
  let eyeScaleNorm := computeEyeScale landmarks (by omega)
  let anchorR := toPx (landmarks.get ⟨33, by omega⟩)
  let anchorL := toPx (landmarks.get ⟨362, by omega⟩)
  let irisR := toPx (landmarks.get ⟨468, by omega⟩)
  let irisL := toPx (landmarks.get ⟨473, by omega⟩)
  let offsetR : ℝ × ℝ := (irisR.x - anchorR.x, irisR.y - anchorR.y)
  let offsetL : ℝ × ℝ := (irisL.x - anchorL.x, irisL.y - anchorL.y)
  let updR := st.kalmanRight.update offsetR.1 offsetR.2
  let updL := st.kalmanLeft.update offsetL.1 offsetL.2
  let kR : ℝ × ℝ := cond isBlinking (st.lastEyePos.rX, st.lastEyePos.rY) updR.2
  let kL : ℝ × ℝ := cond isBlinking (st.lastEyePos.lX, st.lastEyePos.lY) updL.2
  let kalmanRight1 := cond isBlinking st.kalmanRight updR.1
  let kalmanLeft1 := cond isBlinking st.kalmanLeft updL.1
  let lastEyePos1 :=
    cond isBlinking st.lastEyePos ⟨updR.2.1, updR.2.2, updL.2.1, updL.2.2⟩
  let smoothOffsetR : ℝ × ℝ := (kR.1 / 640, kR.2 / 480)
  let smoothOffsetL : ℝ × ℝ := (kL.1 / 640, kL.2 / 480)
  let avgOffsetX := (smoothOffsetR.1 + smoothOffsetL.1) / 2
  let avgOffsetY := (smoothOffsetR.2 + smoothOffsetL.2) / 2
  let eyeSensitivity := (1.0 : ℝ)
  let eyeRadius := eyeScaleNorm * 0.4
  let eyeYaw := atan2 avgOffsetX eyeRadius * eyeSensitivity
  let eyePitch := atan2 avgOffsetY eyeRadius * eyeSensitivity
  let rotationOffset1 :=
    cond st.recenterNextFrame ⟨fixedYaw, rawPitch, rawRoll⟩ st.rotationOffset
  let recenterNextFrame1 := cond st.recenterNextFrame false st.recenterNextFrame
  let appliedHeadYaw := fixedYaw - rotationOffset1.yaw
  let appliedHeadPitch := rawPitch - rotationOffset1.pitch
  let appliedHeadRoll := rawRoll - rotationOffset1.roll
  let fy := st.filterYaw.filter appliedHeadYaw timestamp
  let fp := st.filterPitch.filter appliedHeadPitch timestamp
  let fr := st.filterRoll.filter appliedHeadRoll timestamp
  let isIrisMode := st.trackingMode == TrackingMode.iris
  let eyeGain := (5.0 : ℝ)
  let eyeComponentYaw := cond isIrisMode (eyeYaw * eyeGain) 0
  let eyeComponentPitch := cond isIrisMode (eyePitch * (-5.0)) 0
  let finalYaw := fy.2 + eyeComponentYaw
  let finalPitch := fp.2 + eyeComponentPitch
  { st with
    filterYaw := fy.1
    filterPitch := fp.1
    filterRoll := fr.1
    kalmanRight := kalmanRight1
    kalmanLeft := kalmanLeft1
    lastEyePos := lastEyePos1
    rotationOffset := rotationOffset1
    recenterNextFrame := recenterNextFrame1
    blink := ⟨isBlinking, avgEAR, leftEAR, rightEAR⟩
    rotation := ⟨finalYaw, finalPitch, fr.2⟩
    iris := ⟨avgOffsetX, avgOffsetY⟩
    gaze := ⟨finalYaw, finalPitch⟩
    eyePos := ⟨(nose.x - 320) * 5.0, (nose.y - 240) * 5.0, 800⟩ }

/-- The per-frame `onResults` callback for a frame with a detected face
(source lines 481–628).  The outer `Option` is the JS exception channel:
`none` means the callback threw (which happens inside `calculateEAR` for
frames with fewer than 388 points, BEFORE the 478-point guard is
reached).  A frame failing the guard returns the state unchanged. -/
noncomputable def onResults (st : TrackState) (timestamp : ℝ)
    (landmarks : List V3) : Option TrackState := do
  let rightEAR ← calculateEAR landmarks SUBJECT_RIGHT_EYE
  let leftEAR ← calculateEAR landmarks SUBJECT_LEFT_EYE
  let avgEAR := (optAdd leftEAR rightEAR).map fun s => s / 2
  let isBlinking := earLt avgEAR (0.18 : ℝ)
  if h : landmarks.length < 478 then pure st
  else pure (onResultsCore st timestamp landmarks (by omega) rightEAR leftEAR
    avgEAR isBlinking)

/-- The all-zero 478-point frame (both eyes' corner landmarks coincide, so
both horizontal EAR distances are zero). -/
def zeroFrame : List V3 := List.replicate 478 ⟨0, 0, 0⟩

/-- A 478-point frame with both eyes fully closed (both EARs are zero):
only the two horizontal-corner landmarks 133 and 263 are displaced. -/
noncomputable def blinkFrame : List V3 :=
  List.ofFn fun i : Fin 478 =>
    if (i : ℕ) = 133 ∨ (i : ℕ) = 263 then ⟨1, 0, 0⟩ else ⟨0, 0, 0⟩

/-- A 478-point frame whose average EAR is exactly `0.18 = 9/50`: the
horizontal corners 133 and 263 give `h = 1` for both eyes, and the
landmarks 160 and 385 give `v1 = 9/25`, `v2 = 0`, so each EAR is
`(9/25)/2 = 9/50`. -/
noncomputable def boundaryFrame : List V3 :=
  List.ofFn fun i : Fin 478 =>
    if (i : ℕ) = 133 ∨ (i : ℕ) = 263 then ⟨1, 0, 0⟩
    else if (i : ℕ) = 160 ∨ (i : ℕ) = 385 then ⟨9 / 25, 0, 0⟩
    else ⟨0, 0, 0⟩

end HeadTracking

namespace RegressionUtils

/-- C1: the calibration fit is atomic on failure: if the input sample list
has fewer than 6 points, or the 6×6 normal-equations matrix is singular
(some pivot magnitude below `1e-10` during inversion, i.e. `invert` throws),
then `fit` returns with both stored coefficient vectors exactly as before
the call.  `fit` is a total function of the state: the early `return`
respectively the `try`/`catch` keep the error from escaping to the caller. -/
theorem fit_atomic_on_failure (s : PolynomialRegression)
    (inputs outputs : List Point)
    (h : inputs.length < 6 ∨
      (inputs.length = outputs.length ∧ invert (XtX inputs) = none)) :
    s.fit inputs outputs = s := by
  rcases h with h | ⟨_, h⟩
  · simp [PolynomialRegression.fit, h]
  · rcases Nat.lt_or_ge inputs.length 6 with h6 | h6
    · simp [PolynomialRegression.fit, h6]
    · simp [PolynomialRegression.fit, Nat.not_lt.mpr h6, h]

/-- A matrix whose first column is zero fails the very first elimination
step: whatever row the pivot search picks, the pivot is `0 < 1e-10`. -/
theorem geStep_zero_col (M : Matrix (Fin 6) (Fin 6) ℚ)
    (h : ∀ j, M j 0 = 0) : geStep ⟨M, 1⟩ (0 : Fin 6) = none := by
  have habs : |M (pivotRow M 0) 0| < pivotEps := by
    rw [h, abs_zero, pivotEps]
    norm_num
  simp [geStep, swapRows, habs]

/-- A matrix whose first column is zero is rejected by `invert`. -/
theorem invert_zero_col (M : Matrix (Fin 6) (Fin 6) ℚ)
    (h : ∀ j, M j 0 = 0) : invert M = none := by
  rw [invert, show (List.finRange 6) = [0, 1, 2, 3, 4, 5] from rfl]
  simp only [List.foldlM_cons]
  rw [geStep_zero_col M h]
  rfl

/-- Six identical sample points make `XᵀX` singular: its whole first column
is zero (the first basis function `x` vanishes on every point), so the
first pivot is `0 < 1e-10` and `invert` throws. -/
theorem invert_XtX_zeros :
    invert (XtX (List.replicate 6 (⟨0, 0⟩ : Point))) = none := by
  refine invert_zero_col _ fun j => ?_
  simp [XtX, termRow, List.map_replicate]

/-- Witness for C1 at a concrete input: six identical sample points make
`XᵀX` singular, and the fit leaves a fresh instance untouched. -/
theorem fit_atomic_on_failure_witness :
    ((List.replicate 6 (⟨0, 0⟩ : Point)).length =
        (List.replicate 6 (⟨0, 0⟩ : Point)).length ∧
      invert (XtX (List.replicate 6 (⟨0, 0⟩ : Point))) = none) ∧
    PolynomialRegression.init.fit (List.replicate 6 (⟨0, 0⟩ : Point))
      (List.replicate 6 (⟨0, 0⟩ : Point)) = PolynomialRegression.init :=
  ⟨⟨rfl, invert_XtX_zeros⟩,
    fit_atomic_on_failure _ _ _ (Or.inr ⟨rfl, invert_XtX_zeros⟩)⟩

/-- C10: `predict` called while either stored coefficient vector is still
`null` (so in particular before any successful fit, including after a
failed fit) returns exactly `{x: 0, y: 0}`. -/
theorem predict_before_fit (s : PolynomialRegression) (x y : ℚ)
    (h : s.coefficientsX = none ∨ s.coefficientsY = none) :
    s.predict x y = (0, 0) := by
  obtain ⟨cX, cY⟩ := s
  rcases h with h | h
  · cases h
    rfl
  · cases h
    cases cX <;> rfl

/-- Witness for C10: a freshly constructed instance predicts `(0, 0)`. -/
theorem predict_before_fit_witness :
    PolynomialRegression.init.coefficientsX = none ∧
    PolynomialRegression.init.predict 3 7 = (0, 0) :=
  ⟨rfl, predict_before_fit _ 3 7 (Or.inl rfl)⟩

end RegressionUtils

namespace MediaPipeHook

/-- Closed form of the decay: after `n` no-face frames each coordinate's
distance to the neutral point is `(19/20)ⁿ` times the initial distance. -/
theorem decayIter_closed (p : EyePos) (n : ℕ) :
    (decayIter n p).x - neutral.x = (19 / 20) ^ n * (p.x - neutral.x) ∧
    (decayIter n p).y - neutral.y = (19 / 20) ^ n * (p.y - neutral.y) ∧
    (decayIter n p).z - neutral.z = (19 / 20) ^ n * (p.z - neutral.z) := by
  induction n with
  | zero => simp [decayIter, neutral]
  | succ n ih =>
    obtain ⟨hx, hy, hz⟩ := ih
    refine ⟨?_, ?_, ?_⟩
    · simp only [decayIter, decayStep, neutral] at hx ⊢
      rw [pow_succ]
      linear_combination (19 / 20 : ℚ) * hx
    · simp only [decayIter, decayStep, neutral] at hy ⊢
      rw [pow_succ]
      linear_combination (19 / 20 : ℚ) * hy
    · simp only [decayIter, decayStep, neutral] at hz ⊢
      rw [pow_succ]
      linear_combination (19 / 20 : ℚ) * hz

/-- C8: starting from any EMA state, each no-face frame replaces the state
by `0.05·neutral + 0.95·previous` with `neutral = (0, 0, 800)` (that is the
definition of `decayStep`); on every such frame the distance of each
coordinate to the neutral point shrinks exactly by the factor `0.95`, so it
is non-increasing in absolute value and never changes sign over any run of
no-face frames. -/
theorem noface_decay_monotone (p : EyePos) (n : ℕ) :
    ((decayIter (n + 1) p).x - neutral.x
        = 19 / 20 * ((decayIter n p).x - neutral.x) ∧
      (decayIter (n + 1) p).y - neutral.y
        = 19 / 20 * ((decayIter n p).y - neutral.y) ∧
      (decayIter (n + 1) p).z - neutral.z
        = 19 / 20 * ((decayIter n p).z - neutral.z)) ∧
    (|(decayIter (n + 1) p).x - neutral.x| ≤ |(decayIter n p).x - neutral.x| ∧
      |(decayIter (n + 1) p).y - neutral.y| ≤ |(decayIter n p).y - neutral.y| ∧
      |(decayIter (n + 1) p).z - neutral.z| ≤ |(decayIter n p).z - neutral.z|) ∧
    (0 ≤ ((decayIter n p).x - neutral.x) * (p.x - neutral.x) ∧
      0 ≤ ((decayIter n p).y - neutral.y) * (p.y - neutral.y) ∧
      0 ≤ ((decayIter n p).z - neutral.z) * (p.z - neutral.z)) := by
  obtain ⟨hx, hy, hz⟩ := decayIter_closed p n
  have step : ∀ a : ℚ, (1 / 20 * 0 + 19 / 20 * a) - 0 = 19 / 20 * (a - 0) := by
    intro a; ring
  constructor
  · refine ⟨?_, ?_, ?_⟩ <;>
      · simp only [decayIter, decayStep, neutral] at *
        ring
  constructor
  · have h1 : ∀ a b : ℚ, a = 19 / 20 * b → |a| ≤ |b| := by
      intro a b hab
      rw [hab, abs_mul, abs_of_pos (show (0 : ℚ) < 19 / 20 by norm_num)]
      linarith [abs_nonneg b]
    refine ⟨h1 _ _ ?_, h1 _ _ ?_, h1 _ _ ?_⟩ <;>
      · simp only [decayIter, decayStep, neutral] at *
        ring
  · have hnn : (0 : ℚ) ≤ (19 / 20) ^ n := by positivity
    refine ⟨?_, ?_, ?_⟩
    · rw [hx, mul_assoc]
      exact mul_nonneg hnn (mul_self_nonneg _)
    · rw [hy, mul_assoc]
      exact mul_nonneg hnn (mul_self_nonneg _)
    · rw [hz, mul_assoc]
      exact mul_nonneg hnn (mul_self_nonneg _)

end MediaPipeHook

namespace KalmanUtils

/-- C3: for every freshly constructed `KalmanFilter` (any `processNoise`
and `measurementNoise`), the first `update(mx, my)` returns exactly
`(mx, my)` and initialises the state vector to `[mx, my, 0, 0]` (zero
velocity) without running a predict step: the covariance `P` (and every
other field) is untouched, only `initialized` is flagged. -/
theorem kalman_first_update (pn mn mx my : ℚ) :
    ((KalmanFilter.construct pn mn).update mx my).2 = (mx, my) ∧
    ((KalmanFilter.construct pn mn).update mx my).1.x = ![mx, my, 0, 0] ∧
    ((KalmanFilter.construct pn mn).update mx my).1.P =
      (KalmanFilter.construct pn mn).P ∧
    ((KalmanFilter.construct pn mn).update mx my).1.initialized = true :=
  ⟨rfl, rfl, rfl, rfl⟩

/-- C4: after initialisation, whenever the 2×2 innovation covariance
`S = H·P⁻·Hᵀ + R` has `|det S| < 1e-6`, the guarded inversion returns the
zero matrix, hence the Kalman gain is zero, the returned and stored state
is the pure prediction `F·x`, and the covariance is the predicted
`F·P·Fᵀ + Q` — the measurement is skipped, and no division is performed at
all on this branch (so no NaN/Infinity can arise from it). -/
theorem kalman_degenerate_innovation (k : KalmanFilter ℚ) (mx my : ℚ)
    (hinit : k.initialized = true)
    (hdet : |det2 (innovationS k)| < 1 / 1000000) :
    invert2x2 (innovationS k) = 0 ∧
    (k.update mx my).1.x = k.F.mulVec k.x ∧
    (k.update mx my).1.P = predictedP k ∧
    (k.update mx my).2 = (k.F.mulVec k.x 0, k.F.mulVec k.x 1) := by
  have hzero : invert2x2 (innovationS k) = 0 := by
    rw [invert2x2]
    simp only [hdet, if_pos]
  have hupd : k.update mx my =
      ({ k with x := k.F.mulVec k.x, P := predictedP k },
        (k.F.mulVec k.x 0, k.F.mulVec k.x 1)) := by
    rw [KalmanFilter.update]
    rw [hinit]
    simp only [Bool.true_eq_false, if_false]
    have hS : k.H * predictedP k * k.H.transpose + k.R = innovationS k := rfl
    rw [hS, hzero]
    simp only [Matrix.mul_zero, Matrix.zero_mulVec, Pi.zero_apply, add_zero,
      Matrix.zero_mul, sub_zero, Matrix.one_mul]
    refine Prod.ext ?_ rfl
    simp only []
    congr 1
    funext i
    fin_cases i <;>
      simp [Matrix.cons_val_zero, Matrix.cons_val_one, Matrix.head_cons]
  refine ⟨hzero, ?_, ?_, ?_⟩ <;> rw [hupd]


/-- Witness for C4 at the concrete filter `degenerateKF`: its innovation
covariance is the zero matrix, so the update keeps the pure prediction. -/
theorem kalman_degenerate_innovation_witness :
    degenerateKF.initialized = true ∧
    |det2 (innovationS degenerateKF)| < 1 / 1000000 ∧
    (degenerateKF.update 9 9).1.x = degenerateKF.F.mulVec degenerateKF.x := by
  have hS : innovationS degenerateKF = 0 := by
    have hP : predictedP degenerateKF = 0 := by
      simp [predictedP, degenerateKF, KalmanFilter.construct, eye]
    rw [innovationS, hP]
    simp only [Matrix.mul_zero, Matrix.zero_mul, zero_add]
    simp [degenerateKF, KalmanFilter.construct, eye]
  have hdet : |det2 (innovationS degenerateKF)| < 1 / 1000000 := by
    rw [hS]
    norm_num [det2, Matrix.zero_apply]
  exact ⟨rfl, hdet, (kalman_degenerate_innovation degenerateKF 9 9 rfl hdet).2.1⟩

end KalmanUtils

namespace RegressionUtils

/-- Every element of `(finRange n).drop k` has value at least `k`. -/
theorem mem_drop_finRange {n k : ℕ} {j : Fin n}
    (h : j ∈ (List.finRange n).drop k) : k ≤ j.val := by
  obtain ⟨m, hm, hget⟩ := List.getElem_of_mem h
  rw [List.getElem_drop] at hget
  have hval : (j : ℕ) = k + m := by
    rw [← hget]
    simp [List.getElem_finRange]
  omega

/-- The partial-pivot search only ever returns a row at or below row `i`:
it starts at `i` and scans `j = i+1 … n-1`. -/
theorem pivotRow_ge {n : ℕ} (L : Matrix (Fin n) (Fin n) ℚ) (i : Fin n) :
    i ≤ pivotRow L i := by
  rw [pivotRow]
  have main : ∀ (l : List (Fin n)), (∀ j ∈ l, i ≤ j) → ∀ acc, i ≤ acc →
      i ≤ l.foldl (fun p j => if |L j i| > |L p i| then j else p) acc := by
    intro l
    induction l with
    | nil => intro _ acc hacc; simpa using hacc
    | cons a t ih =>
      intro hmem acc hacc
      rw [List.foldl_cons]
      refine ih (fun j hj => hmem j (List.mem_cons_of_mem _ hj)) _ ?_
      by_cases hcmp : |L a i| > |L acc i|
      · rw [if_pos hcmp]
        exact hmem a (List.mem_cons_self _ _)
      · rw [if_neg hcmp]
        exact hacc
  refine main _ (fun j hj => ?_) i le_rfl
  have := mem_drop_finRange hj
  exact Fin.le_def.mpr (by omega)


/-- Swapping rows `i` and `p` with `i ≤ p` preserves the identity pattern
of the already-processed columns. -/
theorem swapAug_idPrefix {n : ℕ} (A : Aug n) (i p : Fin n) (hip : i ≤ p)
    (hpre : idPrefix A i.val) :
    idPrefix (⟨swapRows A.L i p, swapRows A.R i p⟩ : Aug n) i.val := by
  intro k j hj
  have hjv : (j : ℕ) < (i : ℕ) := hj
  have hpv : (i : ℕ) ≤ (p : ℕ) := hip
  simp only [swapRows, Matrix.of_apply]
  by_cases h1 : k = i
  · subst h1
    rw [if_pos rfl, hpre p j hj, if_neg, if_neg]
    · intro hkj
      have := congrArg Fin.val hkj
      omega
    · intro hpj
      have := congrArg Fin.val hpj
      omega
  · rw [if_neg h1]
    by_cases h2 : k = p
    · subst h2
      rw [if_pos rfl, hpre i j hj, if_neg, if_neg]
      · intro hkj
        have := congrArg Fin.val hkj
        omega
      · intro hij
        have := congrArg Fin.val hij
        omega
    · rw [if_neg h2]
      exact hpre k j hj

/-- Swapping two rows of the augmented matrix preserves the row relation. -/
theorem swapAug_rowRel {n : ℕ} (M : Matrix (Fin n) (Fin n) ℚ) (A : Aug n)
    (i p : Fin n) (hrel : rowRel M A) :
    rowRel M (⟨swapRows A.L i p, swapRows A.R i p⟩ : Aug n) := by
  intro r j
  simp only [swapRows, Matrix.of_apply]
  by_cases h1 : r = i
  · subst h1
    simp only [if_pos rfl]
    exact hrel p j
  · by_cases h2 : r = p
    · subst h2
      simp only [if_neg h1, if_pos rfl]
      exact hrel i j
    · simp only [if_neg h1, if_neg h2]
      exact hrel r j

/-- After normalisation, every entry of row `i` has been divided by the
pivot — also in the skipped columns `j < i`, which are zero anyway. -/
theorem normAug_row_i {n : ℕ} (A : Aug n) (i : Fin n) (piv : ℚ)
    (hpre : idPrefix A i.val) :
    ∀ j, (normAug A i piv).L i j = A.L i j / piv := by
  intro j
  simp only [normAug, Matrix.of_apply, true_and]
  by_cases hij : i ≤ j
  · rw [if_pos hij]
  · rw [if_neg hij]
    have hz : A.L i j = 0 := by
      rw [hpre i j (by have := Fin.lt_def.mp (not_le.mp hij); omega), if_neg]
      intro hcontra
      have := congrArg Fin.val hcontra
      have := Fin.lt_def.mp (not_le.mp hij)
      omega
    rw [hz, zero_div]

/-- Normalisation leaves the rows other than `i` untouched. -/
theorem normAug_row_ne {n : ℕ} (A : Aug n) (i : Fin n) (piv : ℚ)
    (r : Fin n) (hr : r ≠ i) :
    (∀ j, (normAug A i piv).L r j = A.L r j) ∧
    (∀ j, (normAug A i piv).R r j = A.R r j) := by
  constructor <;> intro j <;> simp only [normAug, Matrix.of_apply] <;>
    rw [if_neg (by simp [hr])]

/-- Normalisation preserves the identity pattern of the processed
columns. -/
theorem normAug_idPrefix {n : ℕ} (A : Aug n) (i : Fin n) (piv : ℚ)
    (hpre : idPrefix A i.val) : idPrefix (normAug A i piv) i.val := by
  intro k j hj
  have hij : ¬ i ≤ j := by
    rw [Fin.le_def]
    have : (j : ℕ) < (i : ℕ) := hj
    omega
  simp only [normAug, Matrix.of_apply]
  rw [if_neg (by simp [hij])]
  exact hpre k j hj

/-- Normalisation makes the pivot entry exactly `1`. -/
theorem normAug_diag {n : ℕ} (A : Aug n) (i : Fin n)
    (hpiv : A.L i i ≠ 0) : (normAug A i (A.L i i)).L i i = 1 := by
  simp only [normAug, Matrix.of_apply, true_and]
  rw [if_pos (le_refl i), div_self hpiv]

/-- Normalisation (division of one row by a nonzero pivot) preserves the
row relation. -/
theorem normAug_rowRel {n : ℕ} (M : Matrix (Fin n) (Fin n) ℚ) (A : Aug n)
    (i : Fin n) (hpre : idPrefix A i.val) (hrel : rowRel M A) (piv : ℚ) :
    rowRel M (normAug A i piv) := by
  intro r j
  by_cases hr : r = i
  · subst hr
    rw [normAug_row_i A r piv hpre j, hrel r j, Finset.sum_div]
    refine Finset.sum_congr rfl fun l _ => ?_
    have hRl : (normAug A r piv).R r l = A.R r l / piv := by
      simp [normAug]
    rw [hRl]
    ring
  · obtain ⟨hL, hR⟩ := normAug_row_ne A i piv r hr
    rw [hL j, hrel r j]
    refine Finset.sum_congr rfl fun l _ => ?_
    rw [hR l]

/-- Elimination leaves row `i` untouched. -/
theorem elimAug_row_i {n : ℕ} (B : Aug n) (i : Fin n) :
    (∀ j, (elimAug B i).L i j = B.L i j) ∧
    (∀ j, (elimAug B i).R i j = B.R i j) := by
  constructor <;> intro j <;> simp only [elimAug, Matrix.of_apply] <;>
    rw [if_neg (by simp)]

/-- For a row `k ≠ i`, elimination subtracts `B[k][i] · row i` — also in
the skipped columns `j < i`, where row `i` is zero anyway. -/
theorem elimAug_row_ne {n : ℕ} (B : Aug n) (i : Fin n)
    (hpre : idPrefix B i.val) (k : Fin n) (hk : k ≠ i) :
    (∀ j, (elimAug B i).L k j = B.L k j - B.L k i * B.L i j) ∧
    (∀ j, (elimAug B i).R k j = B.R k j - B.L k i * B.R i j) := by
  constructor
  · intro j
    simp only [elimAug, Matrix.of_apply]
    by_cases hij : i ≤ j
    · rw [if_pos ⟨hk, hij⟩]
    · rw [if_neg (by simp [hij])]
      have hz : B.L i j = 0 := by
        rw [hpre i j (by have := Fin.lt_def.mp (not_le.mp hij); omega), if_neg]
        intro hcontra
        have := congrArg Fin.val hcontra
        have := Fin.lt_def.mp (not_le.mp hij)
        omega
      rw [hz, mul_zero, sub_zero]
  · intro j
    simp only [elimAug, Matrix.of_apply]
    rw [if_pos hk]

/-- After eliminating with a unit pivot, column `i` joins the identity
pattern. -/
theorem elimAug_idPrefix {n : ℕ} (B : Aug n) (i : Fin n)
    (hpre : idPrefix B i.val) (hdiag : B.L i i = 1) :
    idPrefix (elimAug B i) (i.val + 1) := by
  intro k j hj
  rcases Nat.lt_or_ge j.val i.val with hji | hji
  · have hij : ¬ i ≤ j := by
      rw [Fin.le_def]
      omega
    simp only [elimAug, Matrix.of_apply]
    rw [if_neg (by simp [hij])]
    exact hpre k j hji
  · have hjeq : j = i := Fin.ext (by omega)
    subst hjeq
    by_cases hk : k = j
    · subst hk
      rw [(elimAug_row_i B k).1 k, hdiag, if_pos rfl]
    · rw [(elimAug_row_ne B j hpre k hk).1 j, hdiag, mul_one, sub_self,
        if_neg hk]

/-- Elimination (subtracting a multiple of row `i` from the other rows)
preserves the row relation. -/
theorem elimAug_rowRel {n : ℕ} (M : Matrix (Fin n) (Fin n) ℚ) (B : Aug n)
    (i : Fin n) (hpre : idPrefix B i.val) (hrel : rowRel M B) :
    rowRel M (elimAug B i) := by
  intro r j
  by_cases hr : r = i
  · subst hr
    rw [(elimAug_row_i B r).1 j, hrel r j]
    refine Finset.sum_congr rfl fun l _ => ?_
    rw [(elimAug_row_i B r).2 l]
  · rw [(elimAug_row_ne B i hpre r hr).1 j, hrel r j, hrel i j,
      Finset.mul_sum, ← Finset.sum_sub_distrib]
    refine Finset.sum_congr rfl fun l _ => ?_
    rw [(elimAug_row_ne B i hpre r hr).2 l]
    ring


/-- One successful elimination step extends the identity prefix by one
column and preserves the row relation. -/
theorem geStep_invariant {n : ℕ} (M : Matrix (Fin n) (Fin n) ℚ)
    (A A' : Aug n) (i : Fin n) (hpre : idPrefix A i.val) (hrel : rowRel M A)
    (hstep : geStep A i = some A') :
    idPrefix A' (i.val + 1) ∧ rowRel M A' := by
  rw [show geStep A i =
      (if |swapRows A.L i (pivotRow A.L i) i i| < pivotEps then none
       else some (elimAug (normAug
          (⟨swapRows A.L i (pivotRow A.L i),
            swapRows A.R i (pivotRow A.L i)⟩ : Aug n) i
          (swapRows A.L i (pivotRow A.L i) i i)) i)) from rfl] at hstep
  by_cases hc : |swapRows A.L i (pivotRow A.L i) i i| < pivotEps
  · rw [if_pos hc] at hstep
    cases hstep
  · rw [if_neg hc] at hstep
    have hA' := (Option.some_inj.mp hstep).symm
    subst hA'
    have hip : i ≤ pivotRow A.L i := pivotRow_ge A.L i
    set A1 : Aug n :=
      ⟨swapRows A.L i (pivotRow A.L i), swapRows A.R i (pivotRow A.L i)⟩
      with hA1
    have hpre1 : idPrefix A1 i.val :=
      swapAug_idPrefix A i (pivotRow A.L i) hip hpre
    have hrel1 : rowRel M A1 := swapAug_rowRel M A i (pivotRow A.L i) hrel
    have hpiv : A1.L i i ≠ 0 := by
      intro h0
      apply hc
      rw [show swapRows A.L i (pivotRow A.L i) i i = A1.L i i from rfl, h0,
        abs_zero, pivotEps]
      norm_num
    have hpreB : idPrefix (normAug A1 i (A1.L i i)) i.val :=
      normAug_idPrefix A1 i (A1.L i i) hpre1
    have hdiag : (normAug A1 i (A1.L i i)).L i i = 1 := normAug_diag A1 i hpiv
    have hrelB : rowRel M (normAug A1 i (A1.L i i)) :=
      normAug_rowRel M A1 i hpre1 hrel1 (A1.L i i)
    exact ⟨elimAug_idPrefix _ i hpreB hdiag, elimAug_rowRel M _ i hpreB hrelB⟩

/-- The elimination loop, run from column `m` on, turns any state
satisfying the invariants into one satisfying them for all `n` columns. -/
theorem geLoop_invariant {n : ℕ} (M : Matrix (Fin n) (Fin n) ℚ) :
    ∀ (fuel m : ℕ), n - m = fuel → ∀ A : Aug n, idPrefix A m → rowRel M A →
      ∀ A', ((List.finRange n).drop m).foldlM geStep A = some A' →
        idPrefix A' n ∧ rowRel M A' := by
  intro fuel
  induction fuel with
  | zero =>
    intro m hnm A hpre hrel A' hfold
    have hmn : n ≤ m := by omega
    rw [List.drop_eq_nil_of_le (by simpa using hmn), List.foldlM_nil] at hfold
    have hAA : A = A' := by simpa using hfold
    subst hAA
    exact ⟨fun k j hj => hpre k j (by omega), hrel⟩
  | succ fuel ih =>
    intro m hnm A hpre hrel A' hfold
    have hmn : m < n := by omega
    have hdrop : (List.finRange n).drop m =
        (⟨m, hmn⟩ : Fin n) :: (List.finRange n).drop (m + 1) := by
      rw [List.drop_eq_getElem_cons (by simpa using hmn)]
      congr 1
      simp [List.getElem_finRange]
    rw [hdrop, List.foldlM_cons] at hfold
    cases hA1 : geStep A ⟨m, hmn⟩ with
    | none =>
      rw [hA1] at hfold
      cases hfold
    | some A1 =>
      rw [hA1] at hfold
      obtain ⟨hpre1, hrel1⟩ := geStep_invariant M A A1 ⟨m, hmn⟩ hpre hrel hA1
      exact ih (m + 1) (by omega) A1 hpre1 hrel1 A' hfold

/-- Correctness of `PolynomialRegression.invert`: a returned matrix is a
left inverse of the argument. -/
theorem invert_mul_self {n : ℕ} (M N : Matrix (Fin n) (Fin n) ℚ)
    (h : invert M = some N) : N * M = 1 := by
  rw [invert] at h
  cases hA : (List.finRange n).foldlM geStep (⟨M, 1⟩ : Aug n) with
  | none =>
    rw [hA] at h
    cases h
  | some A =>
    rw [hA] at h
    have hN : A.R = N := by simpa using h
    have h0 : idPrefix (⟨M, 1⟩ : Aug n) 0 := fun k j hj => absurd hj (by omega)
    have hrel0 : rowRel M (⟨M, 1⟩ : Aug n) := by
      intro r j
      simp [Matrix.one_apply, Finset.sum_ite_eq, ite_mul]
    have hfold : ((List.finRange n).drop 0).foldlM geStep (⟨M, 1⟩ : Aug n)
        = some A := by simpa using hA
    obtain ⟨hpreN, hrelN⟩ :=
      geLoop_invariant M (n - 0) 0 rfl ⟨M, 1⟩ h0 hrel0 A hfold
    ext r j
    rw [Matrix.mul_apply, ← hN, ← hrelN r j, hpreN r j j.isLt,
      Matrix.one_apply]


/-- A finite sum of list sums commutes with the list. -/
theorem sum_fin_list_swap {α : Type} (l : List α) (F : α → Fin 6 → ℚ) :
    ∑ i, (l.map fun p => F p i).sum = (l.map fun p => ∑ i, F p i).sum := by
  induction l with
  | nil => simp
  | cons a t ih => simp [Finset.sum_add_distrib, ih]

/-- `(XᵀX)·β` rewritten as a sum over the sample list. -/
theorem XtX_mulVec (inputs : List Point) (β : Fin 6 → ℚ) (j : Fin 6) :
    (XtX inputs).mulVec β j
      = (inputs.map fun p => termRow p j * ∑ i, termRow p i * β i).sum := by
  simp only [Matrix.mulVec, Matrix.dotProduct]
  have h1 : ∀ i : Fin 6, XtX inputs j i * β i
      = (inputs.map fun p => termRow p j * termRow p i * β i).sum := by
    intro i
    rw [show XtX inputs j i
        = (inputs.map fun p => termRow p j * termRow p i).sum from rfl,
      ← List.sum_map_mul_right]
  simp only [h1]
  rw [sum_fin_list_swap inputs fun p i => termRow p j * termRow p i * β i]
  refine congrArg List.sum (List.map_congr_left fun p _ => ?_)
  rw [Finset.mul_sum]
  exact Finset.sum_congr rfl fun i _ => by ring

/-- Zipping a list with its own image lists each element with its image. -/
theorem zip_self_map {α β : Type} (l : List α) (f : α → β) :
    l.zip (l.map f) = l.map fun p => (p, f p) := by
  induction l with
  | nil => rfl
  | cons a t ih => simp [ih]

/-- `XᵀY` for outputs computed pointwise from the inputs. -/
theorem XtY_map (inputs : List Point) (f : Point → Point) (tgt : Point → ℚ)
    (j : Fin 6) :
    XtY inputs (inputs.map f) tgt j
      = (inputs.map fun p => termRow p j * tgt (f p)).sum := by
  rw [XtY, zip_self_map, List.map_map]
  rfl

/-- C2 (amended): round-trip of fit and predict for noiseless synthetic
data.  If the targets are generated exactly by coefficient vectors `βx`,
`βy` over the basis `[x, y, x·y, x², y², 1]`, the sample list has at least
6 points, and the Gaussian elimination succeeds (no pivot magnitude falls
below `1e-10`), then `fit` recovers exactly `βx`, `βy`, and `predict` on
any input point reproduces the corresponding target output exactly (the
model is `ℚ`, i.e. exact arithmetic). -/
theorem fit_predict_roundtrip (s : PolynomialRegression)
    (inputs : List Point) (βx βy : Fin 6 → ℚ)
    (h6 : 6 ≤ inputs.length)
    (hinv : (invert (XtX inputs)).isSome = true) :
    ∀ p ∈ inputs,
      (s.fit inputs (genOutputs inputs βx βy)).predict p.x p.y
        = (∑ i, termRow p i * βx i, ∑ i, termRow p i * βy i) := by
  obtain ⟨N, hN⟩ := Option.isSome_iff_exists.mp hinv
  have hNM : N * XtX inputs = 1 := invert_mul_self _ _ hN
  have hXtYx : XtY inputs (genOutputs inputs βx βy) Point.x
      = (XtX inputs).mulVec βx := by
    funext j
    rw [genOutputs, XtY_map, XtX_mulVec]
  have hXtYy : XtY inputs (genOutputs inputs βx βy) Point.y
      = (XtX inputs).mulVec βy := by
    funext j
    rw [genOutputs, XtY_map, XtX_mulVec]
  have hcx : N.mulVec (XtY inputs (genOutputs inputs βx βy) Point.x) = βx := by
    rw [hXtYx, Matrix.mulVec_mulVec, hNM, Matrix.one_mulVec]
  have hcy : N.mulVec (XtY inputs (genOutputs inputs βx βy) Point.y) = βy := by
    rw [hXtYy, Matrix.mulVec_mulVec, hNM, Matrix.one_mulVec]
  have hfit : s.fit inputs (genOutputs inputs βx βy)
      = ⟨some βx, some βy⟩ := by
    rw [PolynomialRegression.fit, if_neg (by omega), hN]
    show (⟨some (N.mulVec (XtY inputs (genOutputs inputs βx βy) Point.x)),
        some (N.mulVec (XtY inputs (genOutputs inputs βx βy) Point.y))⟩ :
      PolynomialRegression) = _
    rw [hcx, hcy]
  intro p hp
  rw [hfit]
  rfl

end RegressionUtils

namespace RegressionUtils

/-- Literal-index lookup in a six-entry vector (definitional). -/
theorem vec6_zero {α : Type} (a b c d e f : α) : ![a, b, c, d, e, f] 0 = a := rfl

/-- Literal-index lookup in a six-entry vector (definitional). -/
theorem vec6_one {α : Type} (a b c d e f : α) : ![a, b, c, d, e, f] 1 = b := rfl

/-- Literal-index lookup in a six-entry vector (definitional). -/
theorem vec6_two {α : Type} (a b c d e f : α) : ![a, b, c, d, e, f] 2 = c := rfl

/-- Literal-index lookup in a six-entry vector (definitional). -/
theorem vec6_three {α : Type} (a b c d e f : α) : ![a, b, c, d, e, f] 3 = d := rfl

/-- Literal-index lookup in a six-entry vector (definitional). -/
theorem vec6_four {α : Type} (a b c d e f : α) : ![a, b, c, d, e, f] 4 = e := rfl

/-- Literal-index lookup in a six-entry vector (definitional). -/
theorem vec6_five {α : Type} (a b c d e f : α) : ![a, b, c, d, e, f] 5 = f := rfl

/-- Lookup at a `Fin.mk` index in a six-entry vector (definitional). -/
theorem vec6_mk_zero {α : Type} (a b c d e f : α) (h : (0 : ℕ) < 6) :
    ![a, b, c, d, e, f] ⟨0, h⟩ = a := rfl

/-- Lookup at a `Fin.mk` index in a six-entry vector (definitional). -/
theorem vec6_mk_one {α : Type} (a b c d e f : α) (h : (1 : ℕ) < 6) :
    ![a, b, c, d, e, f] ⟨1, h⟩ = b := rfl

/-- Lookup at a `Fin.mk` index in a six-entry vector (definitional). -/
theorem vec6_mk_two {α : Type} (a b c d e f : α) (h : (2 : ℕ) < 6) :
    ![a, b, c, d, e, f] ⟨2, h⟩ = c := rfl

/-- Lookup at a `Fin.mk` index in a six-entry vector (definitional). -/
theorem vec6_mk_three {α : Type} (a b c d e f : α) (h : (3 : ℕ) < 6) :
    ![a, b, c, d, e, f] ⟨3, h⟩ = d := rfl

/-- Lookup at a `Fin.mk` index in a six-entry vector (definitional). -/
theorem vec6_mk_four {α : Type} (a b c d e f : α) (h : (4 : ℕ) < 6) :
    ![a, b, c, d, e, f] ⟨4, h⟩ = e := rfl

/-- Lookup at a `Fin.mk` index in a six-entry vector (definitional). -/
theorem vec6_mk_five {α : Type} (a b c d e f : α) (h : (5 : ℕ) < 6) :
    ![a, b, c, d, e, f] ⟨5, h⟩ = f := rfl

/-- Value of the `Fin 6` literal `0` (definitional). -/
theorem finval6_zero : ((0 : Fin 6) : ℕ) = 0 := rfl

/-- Value of the `Fin 6` literal `1` (definitional). -/
theorem finval6_one : ((1 : Fin 6) : ℕ) = 1 := rfl

/-- Value of the `Fin 6` literal `2` (definitional). -/
theorem finval6_two : ((2 : Fin 6) : ℕ) = 2 := rfl

/-- Value of the `Fin 6` literal `3` (definitional). -/
theorem finval6_three : ((3 : Fin 6) : ℕ) = 3 := rfl

/-- Value of the `Fin 6` literal `4` (definitional). -/
theorem finval6_four : ((4 : Fin 6) : ℕ) = 4 := rfl

/-- Value of the `Fin 6` literal `5` (definitional). -/
theorem finval6_five : ((5 : Fin 6) : ℕ) = 5 := rfl

set_option maxHeartbeats 1600000 in
/-- `XᵀX` of the witness points, evaluated. -/
theorem XtX_basePts_eval : XtX basePts = gwL0 := by
  refine Matrix.ext fun i j => ?_
  fin_cases i <;> fin_cases j <;>
    · simp only [XtX, basePts, gwL0, Matrix.of_apply, List.map_cons,
        List.map_nil, List.sum_cons, List.sum_nil, termRow, vec6_zero, vec6_one, vec6_two, vec6_three, vec6_four, vec6_five, vec6_mk_zero, vec6_mk_one, vec6_mk_two, vec6_mk_three, vec6_mk_four, vec6_mk_five]
      norm_num [Fin.ext_iff, Fin.le_def, finval6_zero, finval6_one, finval6_two, finval6_three, finval6_four, finval6_five]

set_option maxHeartbeats 1600000 in
/-- The literal form of the identity right half. -/
theorem one_eq_gwR0 : (1 : Matrix (Fin 6) (Fin 6) ℚ) = gwR0 := by
  refine Matrix.ext fun i j => ?_
  fin_cases i <;> fin_cases j <;>
    · simp only [gwR0, Matrix.of_apply, vec6_zero, vec6_one, vec6_two, vec6_three, vec6_four, vec6_five, vec6_mk_zero, vec6_mk_one, vec6_mk_two, vec6_mk_three, vec6_mk_four, vec6_mk_five]
      norm_num [Matrix.one_apply, Fin.ext_iff, finval6_zero, finval6_one, finval6_two, finval6_three, finval6_four, finval6_five]

set_option maxRecDepth 4000 in
set_option maxHeartbeats 1600000 in
/-- Step 0 of the elimination on the witness matrix, evaluated. -/
theorem gwStep0 : geStep (⟨gwL0, gwR0⟩ : Aug 6) 0 = some ⟨gwL1, gwR1⟩ := by
  have e0 : gwL0 (0 : Fin 6) 0 = 7 := by
    simp only [gwL0, Matrix.of_apply, vec6_zero, vec6_one, vec6_two, vec6_three, vec6_four, vec6_five, vec6_mk_zero, vec6_mk_one, vec6_mk_two, vec6_mk_three, vec6_mk_four, vec6_mk_five]
  have a0 : |gwL0 (0 : Fin 6) 0| = 7 := by
    rw [e0]
    norm_num
  have e1 : gwL0 (1 : Fin 6) 0 = 5 := by
    simp only [gwL0, Matrix.of_apply, vec6_zero, vec6_one, vec6_two, vec6_three, vec6_four, vec6_five, vec6_mk_zero, vec6_mk_one, vec6_mk_two, vec6_mk_three, vec6_mk_four, vec6_mk_five]
  have a1 : |gwL0 (1 : Fin 6) 0| = 5 := by
    rw [e1]
    norm_num
  have e2 : gwL0 (2 : Fin 6) 0 = 7 := by
    simp only [gwL0, Matrix.of_apply, vec6_zero, vec6_one, vec6_two, vec6_three, vec6_four, vec6_five, vec6_mk_zero, vec6_mk_one, vec6_mk_two, vec6_mk_three, vec6_mk_four, vec6_mk_five]
  have a2 : |gwL0 (2 : Fin 6) 0| = 7 := by
    rw [e2]
    norm_num
  have e3 : gwL0 (3 : Fin 6) 0 = 11 := by
    simp only [gwL0, Matrix.of_apply, vec6_zero, vec6_one, vec6_two, vec6_three, vec6_four, vec6_five, vec6_mk_zero, vec6_mk_one, vec6_mk_two, vec6_mk_three, vec6_mk_four, vec6_mk_five]
  have a3 : |gwL0 (3 : Fin 6) 0| = 11 := by
    rw [e3]
    norm_num
  have e4 : gwL0 (4 : Fin 6) 0 = 7 := by
    simp only [gwL0, Matrix.of_apply, vec6_zero, vec6_one, vec6_two, vec6_three, vec6_four, vec6_five, vec6_mk_zero, vec6_mk_one, vec6_mk_two, vec6_mk_three, vec6_mk_four, vec6_mk_five]
  have a4 : |gwL0 (4 : Fin 6) 0| = 7 := by
    rw [e4]
    norm_num
  have e5 : gwL0 (5 : Fin 6) 0 = 5 := by
    simp only [gwL0, Matrix.of_apply, vec6_zero, vec6_one, vec6_two, vec6_three, vec6_four, vec6_five, vec6_mk_zero, vec6_mk_one, vec6_mk_two, vec6_mk_three, vec6_mk_four, vec6_mk_five]
  have a5 : |gwL0 (5 : Fin 6) 0| = 5 := by
    rw [e5]
    norm_num
  have hpr : pivotRow gwL0 0 = 3 := by
    rw [pivotRow,
      show (List.finRange 6).drop (((0 : Fin 6)).val + 1) = [1, 2, 3, 4, 5] from rfl]
    simp only [List.foldl_cons, List.foldl_nil]
    norm_num [a0, a1, a2, a3, a4, a5]
  rw [show geStep (⟨gwL0, gwR0⟩ : Aug 6) 0 =
      (if |swapRows gwL0 0 (pivotRow gwL0 0) 0 0| < pivotEps then none
       else some (elimAug (normAug (⟨swapRows gwL0 0 (pivotRow gwL0 0),
           swapRows gwR0 0 (pivotRow gwL0 0)⟩ : Aug 6) 0
           (swapRows gwL0 0 (pivotRow gwL0 0) 0 0)) 0)) from rfl, hpr]
  have hpiv : swapRows gwL0 0 3 0 0 = 11 := by
    simp only [swapRows, gwL0, Matrix.of_apply, vec6_zero, vec6_one, vec6_two, vec6_three, vec6_four, vec6_five, vec6_mk_zero, vec6_mk_one, vec6_mk_two, vec6_mk_three, vec6_mk_four, vec6_mk_five]
    norm_num [Fin.ext_iff, Fin.le_def, finval6_zero, finval6_one, finval6_two, finval6_three, finval6_four, finval6_five]
  rw [hpiv, if_neg (by
    rw [pivotEps, show |(11 : ℚ)| = 11 from by norm_num]
    norm_num)]
  congr 1
  refine Aug.ext ?_ ?_ <;> refine Matrix.ext fun i j => ?_ <;>
    fin_cases i <;> fin_cases j <;>
    · simp only [elimAug, normAug, swapRows, gwL0, gwR0, gwL1, gwR1,
        Matrix.of_apply, vec6_zero, vec6_one, vec6_two, vec6_three, vec6_four, vec6_five, vec6_mk_zero, vec6_mk_one, vec6_mk_two, vec6_mk_three, vec6_mk_four, vec6_mk_five]
      norm_num [Fin.ext_iff, Fin.le_def, finval6_zero, finval6_one, finval6_two, finval6_three, finval6_four, finval6_five]

set_option maxRecDepth 4000 in
set_option maxHeartbeats 1600000 in
/-- Step 1 of the elimination on the witness matrix, evaluated. -/
theorem gwStep1 : geStep (⟨gwL1, gwR1⟩ : Aug 6) 1 = some ⟨gwL2, gwR2⟩ := by
  have e1 : gwL1 (1 : Fin 6) 1 = 42/11 := by
    simp only [gwL1, Matrix.of_apply, vec6_zero, vec6_one, vec6_two, vec6_three, vec6_four, vec6_five, vec6_mk_zero, vec6_mk_one, vec6_mk_two, vec6_mk_three, vec6_mk_four, vec6_mk_five]
  have a1 : |gwL1 (1 : Fin 6) 1| = 42/11 := by
    rw [e1]
    norm_num
  have e2 : gwL1 (2 : Fin 6) 1 = 28/11 := by
    simp only [gwL1, Matrix.of_apply, vec6_zero, vec6_one, vec6_two, vec6_three, vec6_four, vec6_five, vec6_mk_zero, vec6_mk_one, vec6_mk_two, vec6_mk_three, vec6_mk_four, vec6_mk_five]
  have a2 : |gwL1 (2 : Fin 6) 1| = 28/11 := by
    rw [e2]
    norm_num
  have e3 : gwL1 (3 : Fin 6) 1 = 6/11 := by
    simp only [gwL1, Matrix.of_apply, vec6_zero, vec6_one, vec6_two, vec6_three, vec6_four, vec6_five, vec6_mk_zero, vec6_mk_one, vec6_mk_two, vec6_mk_three, vec6_mk_four, vec6_mk_five]
  have a3 : |gwL1 (3 : Fin 6) 1| = 6/11 := by
    rw [e3]
    norm_num
  have e4 : gwL1 (4 : Fin 6) 1 = 72/11 := by
    simp only [gwL1, Matrix.of_apply, vec6_zero, vec6_one, vec6_two, vec6_three, vec6_four, vec6_five, vec6_mk_zero, vec6_mk_one, vec6_mk_two, vec6_mk_three, vec6_mk_four, vec6_mk_five]
  have a4 : |gwL1 (4 : Fin 6) 1| = 72/11 := by
    rw [e4]
    norm_num
  have e5 : gwL1 (5 : Fin 6) 1 = 20/11 := by
    simp only [gwL1, Matrix.of_apply, vec6_zero, vec6_one, vec6_two, vec6_three, vec6_four, vec6_five, vec6_mk_zero, vec6_mk_one, vec6_mk_two, vec6_mk_three, vec6_mk_four, vec6_mk_five]
  have a5 : |gwL1 (5 : Fin 6) 1| = 20/11 := by
    rw [e5]
    norm_num
  have hpr : pivotRow gwL1 1 = 4 := by
    rw [pivotRow,
      show (List.finRange 6).drop (((1 : Fin 6)).val + 1) = [2, 3, 4, 5] from rfl]
    simp only [List.foldl_cons, List.foldl_nil]
    norm_num [a1, a2, a3, a4, a5]
  rw [show geStep (⟨gwL1, gwR1⟩ : Aug 6) 1 =
      (if |swapRows gwL1 1 (pivotRow gwL1 1) 1 1| < pivotEps then none
       else some (elimAug (normAug (⟨swapRows gwL1 1 (pivotRow gwL1 1),
           swapRows gwR1 1 (pivotRow gwL1 1)⟩ : Aug 6) 1
           (swapRows gwL1 1 (pivotRow gwL1 1) 1 1)) 1)) from rfl, hpr]
  have hpiv : swapRows gwL1 1 4 1 1 = 72/11 := by
    simp only [swapRows, gwL1, Matrix.of_apply, vec6_zero, vec6_one, vec6_two, vec6_three, vec6_four, vec6_five, vec6_mk_zero, vec6_mk_one, vec6_mk_two, vec6_mk_three, vec6_mk_four, vec6_mk_five]
    norm_num [Fin.ext_iff, Fin.le_def, finval6_zero, finval6_one, finval6_two, finval6_three, finval6_four, finval6_five]
  rw [hpiv, if_neg (by
    rw [pivotEps, show |(72/11 : ℚ)| = 72/11 from by norm_num]
    norm_num)]
  congr 1
  refine Aug.ext ?_ ?_ <;> refine Matrix.ext fun i j => ?_ <;>
    fin_cases i <;> fin_cases j <;>
    · simp only [elimAug, normAug, swapRows, gwL1, gwR1, gwL2, gwR2,
        Matrix.of_apply, vec6_zero, vec6_one, vec6_two, vec6_three, vec6_four, vec6_five, vec6_mk_zero, vec6_mk_one, vec6_mk_two, vec6_mk_three, vec6_mk_four, vec6_mk_five]
      norm_num [Fin.ext_iff, Fin.le_def, finval6_zero, finval6_one, finval6_two, finval6_three, finval6_four, finval6_five]

set_option maxRecDepth 4000 in
set_option maxHeartbeats 1600000 in
/-- Step 2 of the elimination on the witness matrix, evaluated. -/
theorem gwStep2 : geStep (⟨gwL2, gwR2⟩ : Aug 6) 2 = some ⟨gwL3, gwR3⟩ := by
  have e2 : gwL2 (2 : Fin 6) 2 = 4/9 := by
    simp only [gwL2, Matrix.of_apply, vec6_zero, vec6_one, vec6_two, vec6_three, vec6_four, vec6_five, vec6_mk_zero, vec6_mk_one, vec6_mk_two, vec6_mk_three, vec6_mk_four, vec6_mk_five]
  have a2 : |gwL2 (2 : Fin 6) 2| = 4/9 := by
    rw [e2]
    norm_num
  have e3 : gwL2 (3 : Fin 6) 2 = -1/3 := by
    simp only [gwL2, Matrix.of_apply, vec6_zero, vec6_one, vec6_two, vec6_three, vec6_four, vec6_five, vec6_mk_zero, vec6_mk_one, vec6_mk_two, vec6_mk_three, vec6_mk_four, vec6_mk_five]
  have a3 : |gwL2 (3 : Fin 6) 2| = 1/3 := by
    rw [e3]
    norm_num
  have e4 : gwL2 (4 : Fin 6) 2 = -1/3 := by
    simp only [gwL2, Matrix.of_apply, vec6_zero, vec6_one, vec6_two, vec6_three, vec6_four, vec6_five, vec6_mk_zero, vec6_mk_one, vec6_mk_two, vec6_mk_three, vec6_mk_four, vec6_mk_five]
  have a4 : |gwL2 (4 : Fin 6) 2| = 1/3 := by
    rw [e4]
    norm_num
  have e5 : gwL2 (5 : Fin 6) 2 = -10/9 := by
    simp only [gwL2, Matrix.of_apply, vec6_zero, vec6_one, vec6_two, vec6_three, vec6_four, vec6_five, vec6_mk_zero, vec6_mk_one, vec6_mk_two, vec6_mk_three, vec6_mk_four, vec6_mk_five]
  have a5 : |gwL2 (5 : Fin 6) 2| = 10/9 := by
    rw [e5]
    norm_num
  have hpr : pivotRow gwL2 2 = 5 := by
    rw [pivotRow,
      show (List.finRange 6).drop (((2 : Fin 6)).val + 1) = [3, 4, 5] from rfl]
    simp only [List.foldl_cons, List.foldl_nil]
    norm_num [a2, a3, a4, a5]
  rw [show geStep (⟨gwL2, gwR2⟩ : Aug 6) 2 =
      (if |swapRows gwL2 2 (pivotRow gwL2 2) 2 2| < pivotEps then none
       else some (elimAug (normAug (⟨swapRows gwL2 2 (pivotRow gwL2 2),
           swapRows gwR2 2 (pivotRow gwL2 2)⟩ : Aug 6) 2
           (swapRows gwL2 2 (pivotRow gwL2 2) 2 2)) 2)) from rfl, hpr]
  have hpiv : swapRows gwL2 2 5 2 2 = -10/9 := by
    simp only [swapRows, gwL2, Matrix.of_apply, vec6_zero, vec6_one, vec6_two, vec6_three, vec6_four, vec6_five, vec6_mk_zero, vec6_mk_one, vec6_mk_two, vec6_mk_three, vec6_mk_four, vec6_mk_five]
    norm_num [Fin.ext_iff, Fin.le_def, finval6_zero, finval6_one, finval6_two, finval6_three, finval6_four, finval6_five]
  rw [hpiv, if_neg (by
    rw [pivotEps, show |(-10/9 : ℚ)| = 10/9 from by norm_num]
    norm_num)]
  congr 1
  refine Aug.ext ?_ ?_ <;> refine Matrix.ext fun i j => ?_ <;>
    fin_cases i <;> fin_cases j <;>
    · simp only [elimAug, normAug, swapRows, gwL2, gwR2, gwL3, gwR3,
        Matrix.of_apply, vec6_zero, vec6_one, vec6_two, vec6_three, vec6_four, vec6_five, vec6_mk_zero, vec6_mk_one, vec6_mk_two, vec6_mk_three, vec6_mk_four, vec6_mk_five]
      norm_num [Fin.ext_iff, Fin.le_def, finval6_zero, finval6_one, finval6_two, finval6_three, finval6_four, finval6_five]

set_option maxRecDepth 4000 in
set_option maxHeartbeats 1600000 in
/-- Step 3 of the elimination on the witness matrix, evaluated. -/
theorem gwStep3 : geStep (⟨gwL3, gwR3⟩ : Aug 6) 3 = some ⟨gwL4, gwR4⟩ := by
  have e3 : gwL3 (3 : Fin 6) 3 = -3/5 := by
    simp only [gwL3, Matrix.of_apply, vec6_zero, vec6_one, vec6_two, vec6_three, vec6_four, vec6_five, vec6_mk_zero, vec6_mk_one, vec6_mk_two, vec6_mk_three, vec6_mk_four, vec6_mk_five]
  have a3 : |gwL3 (3 : Fin 6) 3| = 3/5 := by
    rw [e3]
    norm_num
  have e4 : gwL3 (4 : Fin 6) 3 = 2/5 := by
    simp only [gwL3, Matrix.of_apply, vec6_zero, vec6_one, vec6_two, vec6_three, vec6_four, vec6_five, vec6_mk_zero, vec6_mk_one, vec6_mk_two, vec6_mk_three, vec6_mk_four, vec6_mk_five]
  have a4 : |gwL3 (4 : Fin 6) 3| = 2/5 := by
    rw [e4]
    norm_num
  have e5 : gwL3 (5 : Fin 6) 3 = -1/5 := by
    simp only [gwL3, Matrix.of_apply, vec6_zero, vec6_one, vec6_two, vec6_three, vec6_four, vec6_five, vec6_mk_zero, vec6_mk_one, vec6_mk_two, vec6_mk_three, vec6_mk_four, vec6_mk_five]
  have a5 : |gwL3 (5 : Fin 6) 3| = 1/5 := by
    rw [e5]
    norm_num
  have hpr : pivotRow gwL3 3 = 3 := by
    rw [pivotRow,
      show (List.finRange 6).drop (((3 : Fin 6)).val + 1) = [4, 5] from rfl]
    simp only [List.foldl_cons, List.foldl_nil]
    norm_num [a3, a4, a5]
  rw [show geStep (⟨gwL3, gwR3⟩ : Aug 6) 3 =
      (if |swapRows gwL3 3 (pivotRow gwL3 3) 3 3| < pivotEps then none
       else some (elimAug (normAug (⟨swapRows gwL3 3 (pivotRow gwL3 3),
           swapRows gwR3 3 (pivotRow gwL3 3)⟩ : Aug 6) 3
           (swapRows gwL3 3 (pivotRow gwL3 3) 3 3)) 3)) from rfl, hpr]
  have hpiv : swapRows gwL3 3 3 3 3 = -3/5 := by
    simp only [swapRows, gwL3, Matrix.of_apply, vec6_zero, vec6_one, vec6_two, vec6_three, vec6_four, vec6_five, vec6_mk_zero, vec6_mk_one, vec6_mk_two, vec6_mk_three, vec6_mk_four, vec6_mk_five]
    norm_num [Fin.ext_iff, Fin.le_def, finval6_zero, finval6_one, finval6_two, finval6_three, finval6_four, finval6_five]
  rw [hpiv, if_neg (by
    rw [pivotEps, show |(-3/5 : ℚ)| = 3/5 from by norm_num]
    norm_num)]
  congr 1
  refine Aug.ext ?_ ?_ <;> refine Matrix.ext fun i j => ?_ <;>
    fin_cases i <;> fin_cases j <;>
    · simp only [elimAug, normAug, swapRows, gwL3, gwR3, gwL4, gwR4,
        Matrix.of_apply, vec6_zero, vec6_one, vec6_two, vec6_three, vec6_four, vec6_five, vec6_mk_zero, vec6_mk_one, vec6_mk_two, vec6_mk_three, vec6_mk_four, vec6_mk_five]
      norm_num [Fin.ext_iff, Fin.le_def, finval6_zero, finval6_one, finval6_two, finval6_three, finval6_four, finval6_five]

set_option maxRecDepth 4000 in
set_option maxHeartbeats 1600000 in
/-- Step 4 of the elimination on the witness matrix, evaluated. -/
theorem gwStep4 : geStep (⟨gwL4, gwR4⟩ : Aug 6) 4 = some ⟨gwL5, gwR5⟩ := by
  have e4 : gwL4 (4 : Fin 6) 4 = -1/3 := by
    simp only [gwL4, Matrix.of_apply, vec6_zero, vec6_one, vec6_two, vec6_three, vec6_four, vec6_five, vec6_mk_zero, vec6_mk_one, vec6_mk_two, vec6_mk_three, vec6_mk_four, vec6_mk_five]
  have a4 : |gwL4 (4 : Fin 6) 4| = 1/3 := by
    rw [e4]
    norm_num
  have e5 : gwL4 (5 : Fin 6) 4 = -1/3 := by
    simp only [gwL4, Matrix.of_apply, vec6_zero, vec6_one, vec6_two, vec6_three, vec6_four, vec6_five, vec6_mk_zero, vec6_mk_one, vec6_mk_two, vec6_mk_three, vec6_mk_four, vec6_mk_five]
  have a5 : |gwL4 (5 : Fin 6) 4| = 1/3 := by
    rw [e5]
    norm_num
  have hpr : pivotRow gwL4 4 = 4 := by
    rw [pivotRow,
      show (List.finRange 6).drop (((4 : Fin 6)).val + 1) = [5] from rfl]
    simp only [List.foldl_cons, List.foldl_nil]
    norm_num [a4, a5]
  rw [show geStep (⟨gwL4, gwR4⟩ : Aug 6) 4 =
      (if |swapRows gwL4 4 (pivotRow gwL4 4) 4 4| < pivotEps then none
       else some (elimAug (normAug (⟨swapRows gwL4 4 (pivotRow gwL4 4),
           swapRows gwR4 4 (pivotRow gwL4 4)⟩ : Aug 6) 4
           (swapRows gwL4 4 (pivotRow gwL4 4) 4 4)) 4)) from rfl, hpr]
  have hpiv : swapRows gwL4 4 4 4 4 = -1/3 := by
    simp only [swapRows, gwL4, Matrix.of_apply, vec6_zero, vec6_one, vec6_two, vec6_three, vec6_four, vec6_five, vec6_mk_zero, vec6_mk_one, vec6_mk_two, vec6_mk_three, vec6_mk_four, vec6_mk_five]
    norm_num [Fin.ext_iff, Fin.le_def, finval6_zero, finval6_one, finval6_two, finval6_three, finval6_four, finval6_five]
  rw [hpiv, if_neg (by
    rw [pivotEps, show |(-1/3 : ℚ)| = 1/3 from by norm_num]
    norm_num)]
  congr 1
  refine Aug.ext ?_ ?_ <;> refine Matrix.ext fun i j => ?_ <;>
    fin_cases i <;> fin_cases j <;>
    · simp only [elimAug, normAug, swapRows, gwL4, gwR4, gwL5, gwR5,
        Matrix.of_apply, vec6_zero, vec6_one, vec6_two, vec6_three, vec6_four, vec6_five, vec6_mk_zero, vec6_mk_one, vec6_mk_two, vec6_mk_three, vec6_mk_four, vec6_mk_five]
      norm_num [Fin.ext_iff, Fin.le_def, finval6_zero, finval6_one, finval6_two, finval6_three, finval6_four, finval6_five]

set_option maxRecDepth 4000 in
set_option maxHeartbeats 1600000 in
/-- Step 5 of the elimination on the witness matrix, evaluated. -/
theorem gwStep5 : geStep (⟨gwL5, gwR5⟩ : Aug 6) 5 = some ⟨gwL6, gwR6⟩ := by
  have e5 : gwL5 (5 : Fin 6) 5 = 1 := by
    simp only [gwL5, Matrix.of_apply, vec6_zero, vec6_one, vec6_two, vec6_three, vec6_four, vec6_five, vec6_mk_zero, vec6_mk_one, vec6_mk_two, vec6_mk_three, vec6_mk_four, vec6_mk_five]
  have a5 : |gwL5 (5 : Fin 6) 5| = 1 := by
    rw [e5]
    norm_num
  have hpr : pivotRow gwL5 5 = 5 := by
    rw [pivotRow,
      show (List.finRange 6).drop (((5 : Fin 6)).val + 1) = [] from rfl]
    rw [List.foldl_nil]
  rw [show geStep (⟨gwL5, gwR5⟩ : Aug 6) 5 =
      (if |swapRows gwL5 5 (pivotRow gwL5 5) 5 5| < pivotEps then none
       else some (elimAug (normAug (⟨swapRows gwL5 5 (pivotRow gwL5 5),
           swapRows gwR5 5 (pivotRow gwL5 5)⟩ : Aug 6) 5
           (swapRows gwL5 5 (pivotRow gwL5 5) 5 5)) 5)) from rfl, hpr]
  have hpiv : swapRows gwL5 5 5 5 5 = 1 := by
    simp only [swapRows, gwL5, Matrix.of_apply, vec6_zero, vec6_one, vec6_two, vec6_three, vec6_four, vec6_five, vec6_mk_zero, vec6_mk_one, vec6_mk_two, vec6_mk_three, vec6_mk_four, vec6_mk_five]
    norm_num [Fin.ext_iff, Fin.le_def, finval6_zero, finval6_one, finval6_two, finval6_three, finval6_four, finval6_five]
  rw [hpiv, if_neg (by
    rw [pivotEps, show |(1 : ℚ)| = 1 from by norm_num]
    norm_num)]
  congr 1
  refine Aug.ext ?_ ?_ <;> refine Matrix.ext fun i j => ?_ <;>
    fin_cases i <;> fin_cases j <;>
    · simp only [elimAug, normAug, swapRows, gwL5, gwR5, gwL6, gwR6,
        Matrix.of_apply, vec6_zero, vec6_one, vec6_two, vec6_three, vec6_four, vec6_five, vec6_mk_zero, vec6_mk_one, vec6_mk_two, vec6_mk_three, vec6_mk_four, vec6_mk_five]
      norm_num [Fin.ext_iff, Fin.le_def, finval6_zero, finval6_one, finval6_two, finval6_three, finval6_four, finval6_five]

set_option maxRecDepth 8000 in
set_option maxHeartbeats 1600000 in
/-- The elimination on the witness matrix succeeds and returns `gwR6`. -/
theorem invert_basePts_eval : invert (XtX basePts) = some gwR6 := by
  rw [invert, XtX_basePts_eval,
    show (List.finRange 6) = [0, 1, 2, 3, 4, 5] from rfl]
  simp only [List.foldlM_cons, List.foldlM_nil, one_eq_gwR0,
    Option.bind_eq_bind, Option.some_bind, Option.pure_def, gwStep0, gwStep1,
    gwStep2, gwStep3, gwStep4, gwStep5, Option.map_some']

end RegressionUtils

namespace RegressionUtils

/-- C2 witness: on the six `basePts` with all-ones coefficient vectors the
fit succeeds and predict reproduces the target at the input `(1, 2)`. -/
theorem fit_predict_roundtrip_witness :
    6 ≤ basePts.length ∧
    (invert (XtX basePts)).isSome = true ∧
    (PolynomialRegression.init.fit basePts
        (genOutputs basePts (fun _ => 1) fun _ => 1)).predict
        (Point.mk 1 2).x (Point.mk 1 2).y
      = (∑ i, termRow ⟨1, 2⟩ i * (fun _ : Fin 6 => (1 : ℚ)) i,
         ∑ i, termRow ⟨1, 2⟩ i * (fun _ : Fin 6 => (1 : ℚ)) i) := by
  have hsome : (invert (XtX basePts)).isSome = true := by
    rw [invert_basePts_eval]
    rfl
  refine ⟨by norm_num [basePts], hsome, ?_⟩
  exact fit_predict_roundtrip PolynomialRegression.init basePts _ _
    (by norm_num [basePts]) hsome ⟨1, 2⟩ (by norm_num [basePts])

/-- The basis row of a point scaled by `epsQ`. -/
theorem termRow_scale (p : Point) (k : Fin 6) :
    termRow ⟨epsQ * p.x, epsQ * p.y⟩ k = dvec k * termRow p k := by
  fin_cases k <;>
    simp only [termRow, dvec, vec6_zero, vec6_one, vec6_two, vec6_three, vec6_four, vec6_five, vec6_mk_zero, vec6_mk_one, vec6_mk_two, vec6_mk_three, vec6_mk_four, vec6_mk_five] <;>
    ring

/-- `XᵀX` of the scaled points is the componentwise-scaled `XᵀX` of
`basePts`. -/
theorem XtX_tiny (i j : Fin 6) :
    XtX ptsTiny i j = dvec i * dvec j * XtX basePts i j := by
  show ((ptsTiny.map fun p => termRow p i * termRow p j).sum) = _
  rw [show XtX basePts i j
      = ((basePts.map fun p => termRow p i * termRow p j).sum) from rfl,
    ptsTiny, List.map_map, ← List.sum_map_mul_left]
  refine congrArg List.sum (List.map_congr_left fun p _ => ?_)
  simp only [Function.comp_apply]
  rw [termRow_scale p i, termRow_scale p j]
  ring

/-- `dvec` is everywhere nonzero. -/
theorem dvec_ne (k : Fin 6) : dvec k ≠ 0 := by
  fin_cases k <;>
    · simp only [dvec, epsQ, vec6_zero, vec6_one, vec6_two, vec6_three, vec6_four, vec6_five, vec6_mk_zero, vec6_mk_one, vec6_mk_two, vec6_mk_three, vec6_mk_four, vec6_mk_five]
      norm_num

set_option maxHeartbeats 1600000 in
/-- `gwR6` really is a right inverse of the witness matrix. -/
theorem gwL0_mul_gwR6 : gwL0 * gwR6 = 1 := by
  refine Matrix.ext fun i j => ?_
  fin_cases i <;> fin_cases j <;>
    · rw [Matrix.mul_apply, Fin.sum_univ_six]
      simp only [gwL0, gwR6, Matrix.of_apply, vec6_zero, vec6_one, vec6_two, vec6_three, vec6_four, vec6_five, vec6_mk_zero, vec6_mk_one, vec6_mk_two, vec6_mk_three, vec6_mk_four, vec6_mk_five]
      norm_num [Matrix.one_apply, Fin.ext_iff, finval6_zero, finval6_one, finval6_two, finval6_three, finval6_four, finval6_five]

/-- `XtX ptsTiny` is invertible: `tinyInv` is a right inverse. -/
theorem XtX_tiny_mul_inv : XtX ptsTiny * tinyInv = 1 := by
  refine Matrix.ext fun i j => ?_
  rw [Matrix.mul_apply]
  have hterm : ∀ l, XtX ptsTiny i l * tinyInv l j
      = dvec i / dvec j * (gwL0 i l * gwR6 l j) := by
    intro l
    rw [XtX_tiny, show XtX basePts i l = gwL0 i l from by rw [XtX_basePts_eval]]
    simp only [tinyInv, Matrix.of_apply]
    have h1 := dvec_ne l
    have h2 := dvec_ne j
    field_simp
    ring
  simp only [hterm]
  rw [← Finset.mul_sum, ← Matrix.mul_apply, gwL0_mul_gwR6]
  by_cases hij : i = j
  · subst hij
    rw [Matrix.one_apply_eq, mul_one, div_self (dvec_ne i)]
  · rw [Matrix.one_apply_ne hij, mul_zero]

/-- `tinyInv` is also a left inverse of `XtX ptsTiny`. -/
theorem inv_mul_XtX_tiny : tinyInv * XtX ptsTiny = 1 :=
  Matrix.mul_eq_one_comm.mp XtX_tiny_mul_inv

/-- The elimination rejects `XtX ptsTiny`: the partial pivot of the first
column is `5e-11`, below the `1e-10` threshold, although the matrix is
invertible. -/
theorem invert_tiny_none : invert (XtX ptsTiny) = none := by
  have hgw : ∀ r : Fin 6, XtX basePts r 0 = gwL0 r 0 := fun r => by
    rw [XtX_basePts_eval]
  have e0 : XtX ptsTiny (0 : Fin 6) 0 = 7 / 10 ^ 22 := by
    rw [XtX_tiny, hgw, show gwL0 (0 : Fin 6) 0 = 7 from by
      simp only [gwL0, Matrix.of_apply, vec6_zero, vec6_one, vec6_two, vec6_three, vec6_four, vec6_five, vec6_mk_zero, vec6_mk_one, vec6_mk_two, vec6_mk_three, vec6_mk_four, vec6_mk_five]]
    simp only [dvec, epsQ, vec6_zero, vec6_one, vec6_two, vec6_three, vec6_four, vec6_five, vec6_mk_zero, vec6_mk_one, vec6_mk_two, vec6_mk_three, vec6_mk_four, vec6_mk_five]
    norm_num
  have e1 : XtX ptsTiny (1 : Fin 6) 0 = 5 / 10 ^ 22 := by
    rw [XtX_tiny, hgw, show gwL0 (1 : Fin 6) 0 = 5 from by
      simp only [gwL0, Matrix.of_apply, vec6_zero, vec6_one, vec6_two, vec6_three, vec6_four, vec6_five, vec6_mk_zero, vec6_mk_one, vec6_mk_two, vec6_mk_three, vec6_mk_four, vec6_mk_five]]
    simp only [dvec, epsQ, vec6_zero, vec6_one, vec6_two, vec6_three, vec6_four, vec6_five, vec6_mk_zero, vec6_mk_one, vec6_mk_two, vec6_mk_three, vec6_mk_four, vec6_mk_five]
    norm_num
  have e2 : XtX ptsTiny (2 : Fin 6) 0 = 7 / 10 ^ 33 := by
    rw [XtX_tiny, hgw, show gwL0 (2 : Fin 6) 0 = 7 from by
      simp only [gwL0, Matrix.of_apply, vec6_zero, vec6_one, vec6_two, vec6_three, vec6_four, vec6_five, vec6_mk_zero, vec6_mk_one, vec6_mk_two, vec6_mk_three, vec6_mk_four, vec6_mk_five]]
    simp only [dvec, epsQ, vec6_zero, vec6_one, vec6_two, vec6_three, vec6_four, vec6_five, vec6_mk_zero, vec6_mk_one, vec6_mk_two, vec6_mk_three, vec6_mk_four, vec6_mk_five]
    norm_num
  have e3 : XtX ptsTiny (3 : Fin 6) 0 = 11 / 10 ^ 33 := by
    rw [XtX_tiny, hgw, show gwL0 (3 : Fin 6) 0 = 11 from by
      simp only [gwL0, Matrix.of_apply, vec6_zero, vec6_one, vec6_two, vec6_three, vec6_four, vec6_five, vec6_mk_zero, vec6_mk_one, vec6_mk_two, vec6_mk_three, vec6_mk_four, vec6_mk_five]]
    simp only [dvec, epsQ, vec6_zero, vec6_one, vec6_two, vec6_three, vec6_four, vec6_five, vec6_mk_zero, vec6_mk_one, vec6_mk_two, vec6_mk_three, vec6_mk_four, vec6_mk_five]
    norm_num
  have e4 : XtX ptsTiny (4 : Fin 6) 0 = 7 / 10 ^ 33 := by
    rw [XtX_tiny, hgw, show gwL0 (4 : Fin 6) 0 = 7 from by
      simp only [gwL0, Matrix.of_apply, vec6_zero, vec6_one, vec6_two, vec6_three, vec6_four, vec6_five, vec6_mk_zero, vec6_mk_one, vec6_mk_two, vec6_mk_three, vec6_mk_four, vec6_mk_five]]
    simp only [dvec, epsQ, vec6_zero, vec6_one, vec6_two, vec6_three, vec6_four, vec6_five, vec6_mk_zero, vec6_mk_one, vec6_mk_two, vec6_mk_three, vec6_mk_four, vec6_mk_five]
    norm_num
  have e5 : XtX ptsTiny (5 : Fin 6) 0 = 5 / 10 ^ 11 := by
    rw [XtX_tiny, hgw, show gwL0 (5 : Fin 6) 0 = 5 from by
      simp only [gwL0, Matrix.of_apply, vec6_zero, vec6_one, vec6_two, vec6_three, vec6_four, vec6_five, vec6_mk_zero, vec6_mk_one, vec6_mk_two, vec6_mk_three, vec6_mk_four, vec6_mk_five]]
    simp only [dvec, epsQ, vec6_zero, vec6_one, vec6_two, vec6_three, vec6_four, vec6_five, vec6_mk_zero, vec6_mk_one, vec6_mk_two, vec6_mk_three, vec6_mk_four, vec6_mk_five]
    norm_num
  have a0 : |XtX ptsTiny (0 : Fin 6) 0| = 7 / 10 ^ 22 := by rw [e0]; norm_num
  have a1 : |XtX ptsTiny (1 : Fin 6) 0| = 5 / 10 ^ 22 := by rw [e1]; norm_num
  have a2 : |XtX ptsTiny (2 : Fin 6) 0| = 7 / 10 ^ 33 := by rw [e2]; norm_num
  have a3 : |XtX ptsTiny (3 : Fin 6) 0| = 11 / 10 ^ 33 := by rw [e3]; norm_num
  have a4 : |XtX ptsTiny (4 : Fin 6) 0| = 7 / 10 ^ 33 := by rw [e4]; norm_num
  have a5 : |XtX ptsTiny (5 : Fin 6) 0| = 5 / 10 ^ 11 := by rw [e5]; norm_num
  have hpr : pivotRow (XtX ptsTiny) 0 = 5 := by
    rw [pivotRow,
      show (List.finRange 6).drop (((0 : Fin 6)).val + 1) = [1, 2, 3, 4, 5] from rfl]
    simp only [List.foldl_cons, List.foldl_nil]
    norm_num [a0, a1, a2, a3, a4, a5]
  have hstep : geStep (⟨XtX ptsTiny, 1⟩ : Aug 6) (0 : Fin 6) = none := by
    rw [show geStep (⟨XtX ptsTiny, 1⟩ : Aug 6) 0 =
        (if |swapRows (XtX ptsTiny) 0 (pivotRow (XtX ptsTiny) 0) 0 0| < pivotEps
         then none
         else some (elimAug (normAug (⟨swapRows (XtX ptsTiny) 0 (pivotRow (XtX ptsTiny) 0),
             swapRows (1 : Matrix (Fin 6) (Fin 6) ℚ) 0 (pivotRow (XtX ptsTiny) 0)⟩ : Aug 6) 0
             (swapRows (XtX ptsTiny) 0 (pivotRow (XtX ptsTiny) 0) 0 0)) 0)) from rfl,
      hpr,
      show swapRows (XtX ptsTiny) 0 5 0 0 = XtX ptsTiny 5 0 from by
        simp [swapRows]]
    rw [e5, if_pos]
    rw [pivotEps, show |(5 / 10 ^ 11 : ℚ)| = 5 / 10 ^ 11 from by norm_num]
    norm_num
  rw [invert, show (List.finRange 6) = [0, 1, 2, 3, 4, 5] from rfl]
  simp only [List.foldlM_cons]
  rw [hstep]
  rfl

/-- Counterexample to C2 as stated: the targets are generated exactly by
the all-ones coefficient vectors, the sample list has 6 points, and the
normal-equations matrix `XᵀX` IS mathematically invertible (`tinyInv` is a
two-sided inverse) — yet `fit`'s pivot threshold `1e-10` rejects it, the
coefficients stay `null`, and `predict` at the first input point returns
`(0, 0)` instead of the target `(1, 1)`. -/
theorem fit_predict_roundtrip_counterexample :
    6 ≤ ptsTiny.length ∧
    XtX ptsTiny * tinyInv = 1 ∧
    tinyInv * XtX ptsTiny = 1 ∧
    ptsTiny.head? = some ⟨0, 0⟩ ∧
    (genOutputs ptsTiny (fun _ => 1) fun _ => 1).head? = some ⟨1, 1⟩ ∧
    (PolynomialRegression.init.fit ptsTiny
        (genOutputs ptsTiny (fun _ => 1) fun _ => 1)).predict
        (Point.mk 0 0).x (Point.mk 0 0).y ≠ (1, 1) := by
  have hfit : PolynomialRegression.init.fit ptsTiny
      (genOutputs ptsTiny (fun _ => 1) fun _ => 1)
      = PolynomialRegression.init := by
    rw [PolynomialRegression.fit,
      if_neg (by norm_num [ptsTiny, basePts]), invert_tiny_none]
  refine ⟨by norm_num [ptsTiny, basePts], XtX_tiny_mul_inv, inv_mul_XtX_tiny,
    ?_, ?_, ?_⟩
  · norm_num [ptsTiny, basePts]
  · norm_num [genOutputs, ptsTiny, basePts, termRow, Fin.sum_univ_six, vec6_zero, vec6_one, vec6_two, vec6_three, vec6_four, vec6_five, vec6_mk_zero, vec6_mk_one, vec6_mk_two, vec6_mk_three, vec6_mk_four, vec6_mk_five]
  · rw [hfit]
    rw [show PolynomialRegression.init.predict (Point.mk 0 0).x
        (Point.mk 0 0).y = (0, 0) from rfl]
    intro hcontra
    rw [Prod.ext_iff] at hcontra
    exact absurd hcontra.1 (by norm_num)

end RegressionUtils


namespace HeadTracking

theorem getElem?_of_lt {α : Type} (l : List α) (i : ℕ) (h : i < l.length) :
    l[i]? = some (l.get ⟨i, h⟩) := by
  rw [List.getElem?_eq_getElem h, List.get_eq_getElem]

theorem calculateEAR_eval (lm : List V3) (i0 i1 i2 i3 i4 i5 : ℕ) (rest : List ℕ)
    (h0 : i0 < lm.length) (h1 : i1 < lm.length) (h2 : i2 < lm.length)
    (h3 : i3 < lm.length) (h4 : i4 < lm.length) (h5 : i5 < lm.length) :
    calculateEAR lm (i0 :: i1 :: i2 :: i3 :: i4 :: i5 :: rest)
      = some (if 2.0 * (lm.get ⟨i0, h0⟩).distanceTo (lm.get ⟨i3, h3⟩) = 0 then none
          else some (((lm.get ⟨i1, h1⟩).distanceTo (lm.get ⟨i5, h5⟩)
              + (lm.get ⟨i2, h2⟩).distanceTo (lm.get ⟨i4, h4⟩))
            / (2.0 * (lm.get ⟨i0, h0⟩).distanceTo (lm.get ⟨i3, h3⟩)))) := by
  simp only [calculateEAR, getElem?_of_lt lm i0 h0, getElem?_of_lt lm i1 h1,
    getElem?_of_lt lm i2 h2, getElem?_of_lt lm i3 h3, getElem?_of_lt lm i4 h4,
    getElem?_of_lt lm i5 h5, Option.bind_eq_bind, Option.some_bind, Option.pure_def]

theorem calculateEAR_isSome_right (lm : List V3) (h : 388 ≤ lm.length) :
    ∃ e, calculateEAR lm SUBJECT_RIGHT_EYE = some e := by
  rw [SUBJECT_RIGHT_EYE,
    calculateEAR_eval lm 33 160 158 133 153 144 [] (by omega) (by omega)
      (by omega) (by omega) (by omega) (by omega)]
  exact ⟨_, rfl⟩

theorem calculateEAR_isSome_left (lm : List V3) (h : 388 ≤ lm.length) :
    ∃ e, calculateEAR lm SUBJECT_LEFT_EYE = some e := by
  rw [SUBJECT_LEFT_EYE,
    calculateEAR_eval lm 362 385 387 263 373 380 [] (by omega) (by omega)
      (by omega) (by omega) (by omega) (by omega)]
  exact ⟨_, rfl⟩

/-- C5 (amended): a delivered frame whose landmark list has at least 388
but fewer than 478 points is discarded silently — the per-frame handler
returns the state unchanged (no blink/rotation/iris/gaze/eye-position
update, no filter mutation) and no exception surfaces.  The original
claim's range "fewer than 478" is too wide: the EAR computation runs
before the 478-point guard and accesses landmark indices up to 387, so a
frame with fewer than 388 points throws instead. -/
theorem frame_drop_amended (st : TrackState) (t : ℝ) (lm : List V3)
    (h1 : 388 ≤ lm.length) (h2 : lm.length < 478) :
    onResults st t lm = some st := by
  obtain ⟨eR, hR⟩ := calculateEAR_isSome_right lm h1
  obtain ⟨eL, hL⟩ := calculateEAR_isSome_left lm h1
  rw [onResults, hR, hL]
  simp only [Option.bind_eq_bind, Option.some_bind]
  rw [dif_pos h2]
  rfl

end HeadTracking

namespace HeadTracking

theorem onResults_eval (st : TrackState) (t : ℝ) (lm : List V3)
    (h : 478 ≤ lm.length) (eR eL : Option ℝ)
    (hR : calculateEAR lm SUBJECT_RIGHT_EYE = some eR)
    (hL : calculateEAR lm SUBJECT_LEFT_EYE = some eL) :
    onResults st t lm = some (onResultsCore st t lm h eR eL
      ((optAdd eL eR).map fun s => s / 2)
      (earLt ((optAdd eL eR).map fun s => s / 2) (0.18 : ℝ))) := by
  rw [onResults, hR, hL]
  simp only [Option.bind_eq_bind, Option.some_bind]
  rw [dif_neg (by omega)]
  rfl

theorem frameBlink_inv (lm : List V3) (b : Bool) (hb : frameBlink lm = some b) :
    ∃ eR eL, calculateEAR lm SUBJECT_RIGHT_EYE = some eR ∧
      calculateEAR lm SUBJECT_LEFT_EYE = some eL ∧
      earLt ((optAdd eL eR).map fun s => s / 2) (0.18 : ℝ) = b := by
  rw [frameBlink] at hb
  cases hR : calculateEAR lm SUBJECT_RIGHT_EYE with
  | none => rw [hR] at hb; simp at hb
  | some eR =>
    cases hL : calculateEAR lm SUBJECT_LEFT_EYE with
    | none => rw [hR, hL] at hb; simp at hb
    | some eL =>
      rw [hR, hL] at hb
      simp only [Option.bind_eq_bind, Option.some_bind, Option.pure_def,
        Option.some.injEq] at hb
      exact ⟨eR, eL, rfl, rfl, hb⟩

end HeadTracking

namespace HeadTracking

theorem optAdd_none_right (a : Option ℝ) : optAdd a none = none := by
  cases a <;> rfl

theorem V3.distanceTo_self (a : V3) : a.distanceTo a = 0 := by
  rw [V3.distanceTo, V3.sub, V3.length]
  simp only [sub_self]
  rw [show (0:ℝ)^2 + 0^2 + 0^2 = 0 by ring, Real.sqrt_zero]

theorem dist_x (a b : ℝ) :
    V3.distanceTo ⟨a, 0, 0⟩ ⟨b, 0, 0⟩ = |a - b| := by
  rw [V3.distanceTo, V3.sub, V3.length]
  rw [show (a - b)^2 + ((0:ℝ) - 0)^2 + ((0:ℝ) - 0)^2 = (a - b)^2 by ring]
  exact Real.sqrt_sq_eq_abs _

theorem zeroFrame_len : zeroFrame.length = 478 := by
  rw [zeroFrame]; exact List.length_replicate 478 _

theorem zf_getE (i : ℕ) (hi : i < 478) : zeroFrame[i]? = some ⟨0, 0, 0⟩ := by
  rw [show zeroFrame[i]? = (List.replicate 478 (V3.mk 0 0 0))[i]? from rfl,
    List.getElem?_replicate, if_pos hi]

theorem zf_get (i : ℕ) (h : i < zeroFrame.length) :
    zeroFrame.get ⟨i, h⟩ = ⟨0, 0, 0⟩ := by
  have h2 := zf_getE i (by have := zeroFrame_len; omega)
  rw [getElem?_of_lt zeroFrame i h] at h2
  exact Option.some_injective _ h2

theorem zeroFrame_ear_right :
    calculateEAR zeroFrame SUBJECT_RIGHT_EYE = some none := by
  have hlen := zeroFrame_len
  rw [SUBJECT_RIGHT_EYE, calculateEAR_eval zeroFrame 33 160 158 133 153 144 []
    (by omega) (by omega) (by omega) (by omega) (by omega) (by omega)]
  simp only [zf_get]
  rw [if_pos (by rw [V3.distanceTo_self]; norm_num)]

theorem zeroFrame_ear_left :
    calculateEAR zeroFrame SUBJECT_LEFT_EYE = some none := by
  have hlen := zeroFrame_len
  rw [SUBJECT_LEFT_EYE, calculateEAR_eval zeroFrame 362 385 387 263 373 380 []
    (by omega) (by omega) (by omega) (by omega) (by omega) (by omega)]
  simp only [zf_get]
  rw [if_pos (by rw [V3.distanceTo_self]; norm_num)]

theorem blinkFrame_len : blinkFrame.length = 478 := by
  rw [blinkFrame]; exact List.length_ofFn _

theorem bf_getE (i : ℕ) (hi : i < 478) :
    blinkFrame[i]? = some (if i = 133 ∨ i = 263 then ⟨1, 0, 0⟩ else ⟨0, 0, 0⟩) := by
  rw [show blinkFrame[i]? = (List.ofFn fun j : Fin 478 =>
      if (j : ℕ) = 133 ∨ (j : ℕ) = 263 then V3.mk 1 0 0 else V3.mk 0 0 0)[i]? from rfl,
    List.getElem?_ofFn, List.ofFnNthVal, dif_pos hi]

theorem bf_get (i : ℕ) (h : i < blinkFrame.length) :
    blinkFrame.get ⟨i, h⟩ = if i = 133 ∨ i = 263 then ⟨1, 0, 0⟩ else ⟨0, 0, 0⟩ := by
  have h2 := bf_getE i (by have := blinkFrame_len; omega)
  rw [getElem?_of_lt blinkFrame i h] at h2
  exact Option.some_injective _ h2

theorem blinkFrame_ear_right :
    calculateEAR blinkFrame SUBJECT_RIGHT_EYE = some (some 0) := by
  have hlen := blinkFrame_len
  rw [SUBJECT_RIGHT_EYE, calculateEAR_eval blinkFrame 33 160 158 133 153 144 []
    (by omega) (by omega) (by omega) (by omega) (by omega) (by omega)]
  simp only [bf_get]
  norm_num [dist_x]

theorem blinkFrame_ear_left :
    calculateEAR blinkFrame SUBJECT_LEFT_EYE = some (some 0) := by
  have hlen := blinkFrame_len
  rw [SUBJECT_LEFT_EYE, calculateEAR_eval blinkFrame 362 385 387 263 373 380 []
    (by omega) (by omega) (by omega) (by omega) (by omega) (by omega)]
  simp only [bf_get]
  norm_num [dist_x]

theorem blinkFrame_blink : frameBlink blinkFrame = some true := by
  rw [frameBlink, blinkFrame_ear_right, blinkFrame_ear_left]
  simp only [Option.bind_eq_bind, Option.some_bind, Option.pure_def,
    optAdd, Option.map_some', earLt, Option.some.injEq, decide_eq_true_eq]
  norm_num

theorem boundaryFrame_len : boundaryFrame.length = 478 := by
  rw [boundaryFrame]; exact List.length_ofFn _

theorem bdf_getE (i : ℕ) (hi : i < 478) :
    boundaryFrame[i]? = some (if i = 133 ∨ i = 263 then ⟨1, 0, 0⟩
      else if i = 160 ∨ i = 385 then ⟨9 / 25, 0, 0⟩ else ⟨0, 0, 0⟩) := by
  rw [show boundaryFrame[i]? = (List.ofFn fun j : Fin 478 =>
      if (j : ℕ) = 133 ∨ (j : ℕ) = 263 then V3.mk 1 0 0
      else if (j : ℕ) = 160 ∨ (j : ℕ) = 385 then V3.mk (9 / 25) 0 0
      else V3.mk 0 0 0)[i]? from rfl,
    List.getElem?_ofFn, List.ofFnNthVal, dif_pos hi]

theorem bdf_get (i : ℕ) (h : i < boundaryFrame.length) :
    boundaryFrame.get ⟨i, h⟩ = if i = 133 ∨ i = 263 then ⟨1, 0, 0⟩
      else if i = 160 ∨ i = 385 then ⟨9 / 25, 0, 0⟩ else ⟨0, 0, 0⟩ := by
  have h2 := bdf_getE i (by have := boundaryFrame_len; omega)
  rw [getElem?_of_lt boundaryFrame i h] at h2
  exact Option.some_injective _ h2

theorem boundaryFrame_ear_right :
    calculateEAR boundaryFrame SUBJECT_RIGHT_EYE = some (some (9 / 50)) := by
  have hlen := boundaryFrame_len
  rw [SUBJECT_RIGHT_EYE, calculateEAR_eval boundaryFrame 33 160 158 133 153 144 []
    (by omega) (by omega) (by omega) (by omega) (by omega) (by omega)]
  simp only [bdf_get]
  norm_num [dist_x]
  rw [show |(9:ℝ)/25| = 9/25 from abs_of_nonneg (by norm_num)]
  norm_num

theorem boundaryFrame_ear_left :
    calculateEAR boundaryFrame SUBJECT_LEFT_EYE = some (some (9 / 50)) := by
  have hlen := boundaryFrame_len
  rw [SUBJECT_LEFT_EYE, calculateEAR_eval boundaryFrame 362 385 387 263 373 380 []
    (by omega) (by omega) (by omega) (by omega) (by omega) (by omega)]
  simp only [bdf_get]
  norm_num [dist_x]
  rw [show |(9:ℝ)/25| = 9/25 from abs_of_nonneg (by norm_num)]
  norm_num

end HeadTracking

namespace HeadTracking

/-- C5 counterexample: the empty landmark frame has fewer than 478
points, yet the handler does NOT drop it silently — `calculateEAR`
accesses the eye landmarks before the length guard is reached and throws
a `TypeError` (modelled `none`), so an exception surfaces to the
caller. -/
theorem frame_drop_counterexample :
    ([] : List V3).length < 478 ∧ onResults TrackState.init 0 [] = none :=
  ⟨by norm_num, rfl⟩

/-- C5 witness: a concrete 400-point frame is dropped silently. -/
theorem frame_drop_amended_witness :
    388 ≤ (List.replicate 400 (V3.mk 0 0 0)).length ∧
    (List.replicate 400 (V3.mk 0 0 0)).length < 478 ∧
    onResults TrackState.init 0 (List.replicate 400 (V3.mk 0 0 0))
      = some TrackState.init := by
  have hl : (List.replicate 400 (V3.mk 0 0 0)).length = 400 :=
    List.length_replicate 400 _
  exact ⟨by omega, by omega,
    frame_drop_amended TrackState.init 0 _ (by omega) (by omega)⟩

/-- C6: blink hold.  For every processed frame (at least 478 landmarks)
whose computed blink flag is `b`: if `b = true`, neither per-eye Kalman
filter receives an update (both are unchanged by the frame), the stored
last-valid values are kept, and the published iris offset is computed from
those held values; if `b = false`, both filters are updated with the
frame's raw pixel-space iris offsets and the last-valid storage is
overwritten with the filter outputs. -/
theorem blink_hold (st : TrackState) (t : ℝ) (lm : List V3) (b : Bool)
    (h478 : 478 ≤ lm.length) (hb : frameBlink lm = some b) :
    ∃ st', onResults st t lm = some st' ∧
      st'.blink.isBlinking = b ∧
      (b = true →
        st'.kalmanRight = st.kalmanRight ∧
        st'.kalmanLeft = st.kalmanLeft ∧
        st'.lastEyePos = st.lastEyePos ∧
        st'.iris = ⟨(st.lastEyePos.rX / 640 + st.lastEyePos.lX / 640) / 2,
                    (st.lastEyePos.rY / 480 + st.lastEyePos.lY / 480) / 2⟩) ∧
      (b = false →
        ∃ oR oL : ℝ × ℝ,
          rawOffsetR lm = some oR ∧ rawOffsetL lm = some oL ∧
          st'.kalmanRight = (st.kalmanRight.update oR.1 oR.2).1 ∧
          st'.kalmanLeft = (st.kalmanLeft.update oL.1 oL.2).1 ∧
          st'.lastEyePos = ⟨(st.kalmanRight.update oR.1 oR.2).2.1,
                            (st.kalmanRight.update oR.1 oR.2).2.2,
                            (st.kalmanLeft.update oL.1 oL.2).2.1,
                            (st.kalmanLeft.update oL.1 oL.2).2.2⟩) := by
  obtain ⟨eR, eL, hR, hL, hbv⟩ := frameBlink_inv lm b hb
  refine ⟨_, onResults_eval st t lm h478 eR eL hR hL, hbv, ?_, ?_⟩
  · intro hbt
    rw [hbt] at hbv
    rw [hbv]
    exact ⟨rfl, rfl, rfl, rfl⟩
  · intro hbf
    rw [hbf] at hbv
    rw [hbv]
    have hoR : rawOffsetR lm = some
        ((toPx (lm.get ⟨468, by omega⟩)).x - (toPx (lm.get ⟨33, by omega⟩)).x,
         (toPx (lm.get ⟨468, by omega⟩)).y - (toPx (lm.get ⟨33, by omega⟩)).y) := by
      rw [rawOffsetR, getElem?_of_lt lm 33 (by omega), getElem?_of_lt lm 468 (by omega)]
      simp only [Option.bind_eq_bind, Option.some_bind, Option.pure_def]
    have hoL : rawOffsetL lm = some
        ((toPx (lm.get ⟨473, by omega⟩)).x - (toPx (lm.get ⟨362, by omega⟩)).x,
         (toPx (lm.get ⟨473, by omega⟩)).y - (toPx (lm.get ⟨362, by omega⟩)).y) := by
      rw [rawOffsetL, getElem?_of_lt lm 362 (by omega), getElem?_of_lt lm 473 (by omega)]
      simp only [Option.bind_eq_bind, Option.some_bind, Option.pure_def]
    exact ⟨_, _, hoR, hoL, rfl, rfl, rfl⟩

/-- C6 witness: the blink hold at a concrete closed-eyes frame (both
EARs evaluate to `0 < 0.18`, so the frame is blinking). -/
theorem blink_hold_witness :
    478 ≤ blinkFrame.length ∧ frameBlink blinkFrame = some true ∧
    (∃ st', onResults TrackState.init 0 blinkFrame = some st' ∧
      st'.blink.isBlinking = true ∧
      (true = true →
        st'.kalmanRight = TrackState.init.kalmanRight ∧
        st'.kalmanLeft = TrackState.init.kalmanLeft ∧
        st'.lastEyePos = TrackState.init.lastEyePos ∧
        st'.iris = ⟨(TrackState.init.lastEyePos.rX / 640
              + TrackState.init.lastEyePos.lX / 640) / 2,
            (TrackState.init.lastEyePos.rY / 480
              + TrackState.init.lastEyePos.lY / 480) / 2⟩) ∧
      (true = false →
        ∃ oR oL : ℝ × ℝ,
          rawOffsetR blinkFrame = some oR ∧ rawOffsetL blinkFrame = some oL ∧
          st'.kalmanRight = (TrackState.init.kalmanRight.update oR.1 oR.2).1 ∧
          st'.kalmanLeft = (TrackState.init.kalmanLeft.update oL.1 oL.2).1 ∧
          st'.lastEyePos = ⟨(TrackState.init.kalmanRight.update oR.1 oR.2).2.1,
                            (TrackState.init.kalmanRight.update oR.1 oR.2).2.2,
                            (TrackState.init.kalmanLeft.update oL.1 oL.2).2.1,
                            (TrackState.init.kalmanLeft.update oL.1 oL.2).2.2⟩)) := by
  have hlen : 478 ≤ blinkFrame.length := by rw [blinkFrame_len]
  exact ⟨hlen, blinkFrame_blink,
    blink_hold TrackState.init 0 blinkFrame true hlen blinkFrame_blink⟩

/-- C9: the blink boundary is strict.  For every frame whose two EARs
are finite, the published `isBlinking` flag is true exactly when the
average EAR is strictly below `0.18`, and an average of exactly `0.18` is
classified as not blinking. -/
theorem blink_strict (st : TrackState) (t : ℝ) (lm : List V3) (eR eL : ℝ)
    (h478 : 478 ≤ lm.length)
    (hR : calculateEAR lm SUBJECT_RIGHT_EYE = some (some eR))
    (hL : calculateEAR lm SUBJECT_LEFT_EYE = some (some eL)) :
    ∃ st', onResults st t lm = some st' ∧
      (st'.blink.isBlinking = true ↔ (eL + eR) / 2 < 0.18) ∧
      ((eL + eR) / 2 = 0.18 → st'.blink.isBlinking = false) := by
  refine ⟨_, onResults_eval st t lm h478 _ _ hR hL, ?_, ?_⟩
  · show earLt ((optAdd (some eL) (some eR)).map fun s => s / 2) 0.18 = true ↔ _
    simp only [optAdd, Option.map_some', earLt, decide_eq_true_eq]
  · intro hEq
    show earLt ((optAdd (some eL) (some eR)).map fun s => s / 2) 0.18 = false
    simp only [optAdd, Option.map_some', earLt]
    rw [hEq]
    exact decide_eq_false (lt_irrefl _)

/-- C9 witness: a concrete frame whose per-eye EARs are both `9/50`, so
the average is exactly `0.18`, is classified as not blinking. -/
theorem blink_strict_witness :
    478 ≤ boundaryFrame.length ∧
    calculateEAR boundaryFrame SUBJECT_RIGHT_EYE = some (some (9 / 50)) ∧
    calculateEAR boundaryFrame SUBJECT_LEFT_EYE = some (some (9 / 50)) ∧
    ((9 / 50 : ℝ) + 9 / 50) / 2 = 0.18 ∧
    (∃ st', onResults TrackState.init 0 boundaryFrame = some st' ∧
      (st'.blink.isBlinking = true ↔ ((9 / 50 : ℝ) + 9 / 50) / 2 < 0.18) ∧
      (((9 / 50 : ℝ) + 9 / 50) / 2 = 0.18 → st'.blink.isBlinking = false)) := by
  have hlen : 478 ≤ boundaryFrame.length := by rw [boundaryFrame_len]
  exact ⟨hlen, boundaryFrame_ear_right, boundaryFrame_ear_left, by norm_num,
    blink_strict TrackState.init 0 boundaryFrame (9 / 50) (9 / 50) hlen
      boundaryFrame_ear_right boundaryFrame_ear_left⟩

/-- C7 (amended): the EAR division singularity is NOT guarded.  When the
horizontal eye-corner distance of the right eye is zero, the non-finite
IEEE result of the division (modelled `none`) propagates into the
published blink state (`blinkStrength` and `rightEAR`); the frame is
nevertheless classified as not-blinking, because IEEE comparisons whose
left operand is `NaN` or `Infinity` are false. -/
theorem ear_unguarded (st : TrackState) (t : ℝ) (lm : List V3)
    (h478 : 478 ≤ lm.length)
    (hzero : (lm.get ⟨33, by omega⟩).distanceTo (lm.get ⟨133, by omega⟩) = 0) :
    (onResults st t lm).map (fun s => s.blink.isBlinking) = some false ∧
    (onResults st t lm).map (fun s => s.blink.blinkStrength) = some none ∧
    (onResults st t lm).map (fun s => s.blink.rightEAR) = some none := by
  have hR : calculateEAR lm SUBJECT_RIGHT_EYE = some none := by
    rw [SUBJECT_RIGHT_EYE, calculateEAR_eval lm 33 160 158 133 153 144 []
      (by omega) (by omega) (by omega) (by omega) (by omega) (by omega),
      if_pos (by rw [hzero]; norm_num)]
  obtain ⟨eL, hL⟩ := calculateEAR_isSome_left lm (by omega)
  have hnone : (optAdd eL none).map (fun s => s / 2) = none := by
    rw [optAdd_none_right]; rfl
  rw [onResults_eval st t lm h478 none eL hR hL, hnone]
  exact ⟨rfl, rfl, rfl⟩

/-- C7 witness: the all-zero 478-point frame has coinciding eye
corners. -/
theorem ear_unguarded_witness :
    478 ≤ zeroFrame.length ∧
    (zeroFrame.get ⟨33, by rw [zeroFrame_len]; omega⟩).distanceTo
      (zeroFrame.get ⟨133, by rw [zeroFrame_len]; omega⟩) = 0 ∧
    ((onResults TrackState.init 0 zeroFrame).map (fun s => s.blink.isBlinking)
        = some false ∧
      (onResults TrackState.init 0 zeroFrame).map (fun s => s.blink.blinkStrength)
        = some none ∧
      (onResults TrackState.init 0 zeroFrame).map (fun s => s.blink.rightEAR)
        = some none) := by
  have hlen : 478 ≤ zeroFrame.length := by rw [zeroFrame_len]
  have hz : (zeroFrame.get ⟨33, by omega⟩).distanceTo
      (zeroFrame.get ⟨133, by omega⟩) = 0 := by
    rw [zf_get, zf_get]
    exact V3.distanceTo_self _
  exact ⟨hlen, hz, ear_unguarded TrackState.init 0 zeroFrame hlen hz⟩

/-- C7 counterexample: on the all-zero 478-point frame the horizontal
eye-corner distance is zero, and the handler publishes a blink state whose
`blinkStrength` / `rightEAR` / `leftEAR` fields hold the non-finite result
of the unguarded division (modelled `none`): the invalid value DOES
propagate downstream, contrary to the claim. -/
theorem ear_guard_counterexample :
    zeroFrame.length = 478 ∧
    (zeroFrame.get ⟨33, by rw [zeroFrame_len]; omega⟩).distanceTo
      (zeroFrame.get ⟨133, by rw [zeroFrame_len]; omega⟩) = 0 ∧
    (onResults TrackState.init 0 zeroFrame).map (fun s => s.blink.blinkStrength)
      = some none ∧
    (onResults TrackState.init 0 zeroFrame).map (fun s => s.blink.rightEAR)
      = some none ∧
    (onResults TrackState.init 0 zeroFrame).map (fun s => s.blink.leftEAR)
      = some none := by
  have hlen := zeroFrame_len
  have hz : (zeroFrame.get ⟨33, by omega⟩).distanceTo
      (zeroFrame.get ⟨133, by omega⟩) = 0 := by
    rw [zf_get, zf_get]
    exact V3.distanceTo_self _
  refine ⟨hlen, hz, ?_, ?_, ?_⟩ <;>
    rw [onResults_eval TrackState.init 0 zeroFrame (by omega) none none
      zeroFrame_ear_right zeroFrame_ear_left] <;>
    rfl

end HeadTracking
